import Mathlib

/-!
Verification development for the Thrive back-office REST API
(multi-location restaurant backend).

The definitions below are a shallow embedding of the JavaScript
controllers and of the SQL schema triggers:

- orders controllers (SQL variant and TypeORM variant): createOrder,
  updateOrderStatus, updateOrder, deleteOrder;
- ingredients controller: createIngredient, updateIngredient;
- menu controller: toggleMenuStatus;
- users controllers: loginUser (TypeORM variant and SQL variant);
- schema trigger update_customer_total_preps (AFTER INSERT OR DELETE
  ON orders), modelled inside the order insert and delete operations.

Conventions:
- UUIDs are modelled as natural numbers; fresh ids come from a nextId
  counter in the database state.
- DECIMAL money amounts are modelled as rationals.
- Timestamps are modelled as natural numbers ("now" is a parameter).
- A JSON field that may be absent (undefined/null) is an Option.
- JavaScript truthiness defaulting (x || d) on numbers treats 0 as
  falsy; jsNumOr reproduces that exactly.
- Each controller returns the next database state together with an
  Except AppError result; a thrown AppError leaves the state as the
  transaction rollback leaves it.
- Database inserts that can be refused by the storage layer (NOT NULL,
  UNIQUE, foreign keys) are modelled by a Boolean acceptance oracle
  passed to the operation; a refused insert raises a storage error,
  which the BEGIN/COMMIT/ROLLBACK structure of the source turns into a
  full rollback.
-/

namespace Thrive

/-- The AppError class of middleware/errorHandler.js: a message plus an
HTTP status code. -/
structure AppError where
  message : String
  statusCode : Nat
deriving DecidableEq, Repr

/-- JS numeric defaulting x || d: undefined, null and 0 are falsy. -/
def jsNumOr (x : Option ℚ) (d : ℚ) : ℚ :=
  match x with
  | none => d
  | some v => if v = 0 then d else v

/-- JS defaulting x || null on a nullable numeric column: 0 becomes null. -/
def jsNumOrNull (x : Option ℚ) : Option ℚ :=
  match x with
  | none => none
  | some v => if v = 0 then none else some v

/-! ## Order aggregate: data model -/

/-- One element of the items array of a POST /api/orders body. -/
structure OrderItemInput where
  menu_item_id : Option Nat := none
  quantity : Option ℚ := none
  unit_price : Option ℚ := none
  notes : Option String := none
deriving DecidableEq, Repr

/-- A persisted order_items row. -/
structure OrderItemRow where
  id : Nat
  order_id : Nat
  menu_item_id : Option Nat
  quantity : ℚ
  unit_price : ℚ
  total_price : ℚ
  notes : Option String
deriving DecidableEq, Repr

/-- A persisted orders row (the columns the controllers touch). -/
structure OrderRow where
  id : Nat
  location_id : Nat
  customer_id : Option Nat
  order_number : String
  status : String
  total_price : ℚ
  notes : Option String
  order_date : Nat
  delivered_at : Option Nat
  updated_at : Nat
deriving DecidableEq, Repr

/-- Database state for the order aggregate.  totalPreps is the
customers.total_preps column, read as a map from customer id to its
counter value (the rest of the customer row is irrelevant here). -/
structure OrdersDB where
  nextId : Nat
  orders : List OrderRow
  orderItems : List OrderItemRow
  totalPreps : Nat → Int

/-- The body of a POST /api/orders request. -/
structure CreateOrderInput where
  location_id : Option Nat := none
  customer_id : Option Nat := none
  notes : Option String := none
  items : List OrderItemInput := []
deriving DecidableEq, Repr

/-- Per-item total, as computed twice in createOrder:
(item.unit_price || 0) * (item.quantity || 1). -/
def itemTotal (it : OrderItemInput) : ℚ :=
  jsNumOr it.unit_price 0 * jsNumOr it.quantity 1

/-- The createOrder total accumulation loop:
totalPrice += (item.unit_price || 0) * (item.quantity || 1). -/
def orderTotalPrice (items : List OrderItemInput) : ℚ :=
  (items.map itemTotal).sum

/-- Number of orders rows of one location
(SELECT COUNT(*) FROM orders WHERE location_id = $1). -/
def countAt (db : OrdersDB) (loc : Nat) : Nat :=
  (db.orders.filter (fun o => o.location_id == loc)).length

/-- The order_items rows currently persisted for one order
(SELECT * FROM order_items WHERE order_id = $1). -/
def itemsOf (db : OrdersDB) (oid : Nat) : List OrderItemRow :=
  db.orderItems.filter (fun it => it.order_id == oid)

/-- Big-endian decimal digit list of n. -/
def natDigits (n : Nat) : List Nat :=
  (Nat.digits 10 n).reverse

/-- Left-pad a digit list with zeros to width 5, as
String(n).padStart(5, '0') does on the decimal numeral (padStart never
truncates a longer numeral). -/
def padLeft5 (ds : List Nat) : List Nat :=
  List.replicate (5 - ds.length) 0 ++ ds

/-- The digit list of the generated order number for sequence value n. -/
def orderNumberDigits (n : Nat) : List Nat :=
  padLeft5 (natDigits n)

/-- ORD-${String(n).padStart(5, '0')}. -/
def orderNumberOf (n : Nat) : String :=
  "ORD-" ++ String.mk ((orderNumberDigits n).map Nat.digitChar)

/-- Decode one digit character back to its value. -/
def charDigit (c : Char) : Nat := c.toNat - 48

/-- Recover the numeric sequence value encoded in an order_number
string: strip the ORD- prefix of length 4 and read the remaining
zero-padded decimal numeral. -/
def orderSeqOf (s : String) : Nat :=
  Nat.ofDigits 10 (((s.data.drop 4).map charDigit).reverse)

/-- The persisted order_items row built for one supplied item:
quantity defaults by JS truthiness to 1, unit_price to 0, and
total_price is the same (unit_price || 0) * (quantity || 1) product. -/
def mkItemRow (oid iid : Nat) (it : OrderItemInput) : OrderItemRow :=
  { id := iid
    order_id := oid
    menu_item_id := it.menu_item_id
    quantity := jsNumOr it.quantity 1
    unit_price := jsNumOr it.unit_price 0
    total_price := itemTotal it
    notes := it.notes }

/-- The order_items rows createOrder inserts, with ids drawn
sequentially starting at iid. -/
def mkItemRows (oid : Nat) : Nat → List OrderItemInput → List OrderItemRow
  | _, [] => []
  | iid, it :: rest => mkItemRow oid iid it :: mkItemRows oid (iid + 1) rest

/-- The schema trigger update_customer_total_preps applied to one
orders row: UPDATE customers SET total_preps = total_preps + d
WHERE id = customer_id (a NULL customer_id matches no row). -/
def bumpPreps (f : Nat → Int) (cust : Option Nat) (d : Int) : Nat → Int :=
  match cust with
  | none => f
  | some cid => fun i => if i = cid then f i + d else f i

/-- Insert an orders row; the AFTER INSERT trigger increments the
referenced customer's total_preps. -/
def insertOrderRow (db : OrdersDB) (o : OrderRow) : OrdersDB :=
  { db with
    orders := db.orders ++ [o]
    totalPreps := bumpPreps db.totalPreps o.customer_id 1 }

/-- Insert the order_items rows one at a time; itemOk is the storage
layer accepting or refusing each INSERT.  A refusal raises, which the
enclosing transaction turns into a rollback. -/
def insertItems (itemOk : OrderItemRow → Bool) :
    OrdersDB → Nat → List OrderItemInput → Except AppError (OrdersDB × List OrderItemRow)
  | db, _, [] => .ok (db, [])
  | db, oid, it :: rest =>
    let row := mkItemRow oid db.nextId it
    if itemOk row then
      match insertItems itemOk
          { db with nextId := db.nextId + 1, orderItems := db.orderItems ++ [row] }
          oid rest with
      | .ok (db2, rows) => .ok (db2, row :: rows)
      | .error e => .error e
    else
      .error ⟨"order item insert failed", 500⟩

/-- The orders row createOrder builds: the computed total, the
generated order number from the per-location count, status received,
and delivered_at initially null. -/
def newOrderRow (db : OrdersDB) (input : CreateOrderInput) (loc now : Nat) : OrderRow :=
  { id := db.nextId
    location_id := loc
    customer_id := input.customer_id
    order_number := orderNumberOf (countAt db loc + 1)
    status := "received"
    total_price := orderTotalPrice input.items
    notes := input.notes
    order_date := now
    delivered_at := none
    updated_at := now }

/-- createOrder (POST /api/orders), both controller variants: validate
location_id and a non-empty items array, then inside one transaction
compute the total, generate the order number from the per-location
count, insert the order header and every item row; any item-insert
failure rolls the whole creation back. -/
def createOrder (itemOk : OrderItemRow → Bool) (db : OrdersDB)
    (input : CreateOrderInput) (now : Nat) :
    OrdersDB × Except AppError (OrderRow × List OrderItemRow) :=
  match input.location_id with
  | none => (db, .error ⟨"Location ID is required", 400⟩)
  | some loc =>
    if input.items = [] then
      (db, .error ⟨"At least one item is required", 400⟩)
    else
      let order := newOrderRow db input loc now
      let db1 := insertOrderRow { db with nextId := db.nextId + 1 } order
      match insertItems itemOk db1 db.nextId input.items with
      | .ok (db2, rows) => (db2, .ok (order, rows))
      | .error e => (db, .error e)

/-- The five members of the order_status enum, in the order the
controllers list them. -/
def validStatuses : List String :=
  ["received", "preparing", "ready", "delivered", "cancelled"]

/-- Write back one orders row (UPDATE ... WHERE id = ...). -/
def saveOrder (db : OrdersDB) (o : OrderRow) : OrdersDB :=
  { db with orders := db.orders.map (fun x => if x.id == o.id then o else x) }

/-- The row updateOrderStatus writes for an order o and a new status:
status overwritten, delivered_at set to now exactly when the new
status is delivered, updated_at refreshed, everything else kept. -/
def statusWrite (o : OrderRow) (st : String) (now : Nat) : OrderRow :=
  { o with
    status := st
    delivered_at := if st = "delivered" then some now else o.delivered_at
    updated_at := now }

/-- updateOrderStatus (PATCH /api/orders/:id/status): require a status
in the enum, then overwrite the order's status unconditionally;
delivered_at is set to now exactly when the new status is delivered,
and updated_at is refreshed. -/
def updateOrderStatus (db : OrdersDB) (oid : Nat) (status : Option String)
    (now : Nat) : OrdersDB × Except AppError OrderRow :=
  match status with
  | none => (db, .error ⟨"Status is required", 400⟩)
  | some st =>
    if st = "" then (db, .error ⟨"Status is required", 400⟩)
    else if validStatuses.contains st then
      match db.orders.find? (fun o => o.id == oid) with
      | none => (db, .error ⟨"Order not found", 404⟩)
      | some o => (saveOrder db (statusWrite o st now), .ok (statusWrite o st now))
    else
      (db, .error ⟨"Invalid status. Must be one of: " ++
        String.intercalate ", " validStatuses, 400⟩)

/-- The row updateOrder writes for an order o: the supplied fields
overwrite, absent fields keep the column, delivered_at is never
mentioned. -/
def putWrite (o : OrderRow) (customer_id : Option (Option Nat))
    (notes : Option (Option String)) (status : Option String) (now : Nat) : OrderRow :=
  { o with
    customer_id := customer_id.getD o.customer_id
    notes := notes.getD o.notes
    status := status.getD o.status
    updated_at := now }

/-- updateOrder (PUT /api/orders/:id): partial field update of
customer_id, notes and status with no controller-side enum validation
at all, and no mention of delivered_at; a field of the request body
that is absent leaves the column unchanged.  The write itself goes to
the orders table, whose status column is the Postgres enum
order_status (schema.sql): the storage layer persists the written row
exactly when its status is a member of that enum, and otherwise
raises invalid text representation (SQLSTATE 22P02), which the error
handler maps to 400 "Invalid input format", leaving the row
unchanged.  The lookup-then-save sequencing follows the TypeORM
variant (findOne, then save). -/
def updateOrder (db : OrdersDB) (oid : Nat) (customer_id : Option (Option Nat))
    (notes : Option (Option String)) (status : Option String) (now : Nat) :
    OrdersDB × Except AppError OrderRow :=
  match db.orders.find? (fun o => o.id == oid) with
  | none => (db, .error ⟨"Order not found", 404⟩)
  | some o =>
    if validStatuses.contains (putWrite o customer_id notes status now).status then
      (saveOrder db (putWrite o customer_id notes status now),
       .ok (putWrite o customer_id notes status now))
    else
      (db, .error ⟨"Invalid input format", 400⟩)

/-- deleteOrder (DELETE /api/orders/:id): remove the orders row, the
ON DELETE CASCADE removes its order_items, and the AFTER DELETE
trigger decrements the referenced customer's total_preps once per
deleted row. -/
def deleteOrder (db : OrdersDB) (oid : Nat) : OrdersDB × Except AppError Unit :=
  let removed := db.orders.filter (fun o => o.id == oid)
  if removed = [] then
    (db, .error ⟨"Order not found", 404⟩)
  else
    ({ db with
       orders := db.orders.filter (fun o => !(o.id == oid))
       orderItems := db.orderItems.filter (fun it => !(it.order_id == oid))
       totalPreps := removed.foldl (fun f o => bumpPreps f o.customer_id (-1)) db.totalPreps },
     .ok ())

/-! ## Ingredient aggregate: data model -/

/-- One element of the quantities array of an ingredient request. -/
structure TierInput where
  quantity_value : String
  quantity_grams : Option ℚ := none
  price : Option ℚ := none
  is_available : Option Bool := none
deriving DecidableEq, Repr

/-- A persisted ingredient_quantities row. -/
structure TierRow where
  id : Nat
  ingredient_id : Nat
  quantity_value : String
  quantity_grams : Option ℚ
  price : ℚ
  is_available : Bool
deriving DecidableEq, Repr

/-- A persisted ingredients row (the columns the controller touches). -/
structure IngredientRow where
  id : Nat
  food_type_id : Nat
  specification_id : Option Nat
  cook_type_id : Option Nat
  name : Option String
  description : Option String
  is_active : Bool
  updated_at : Nat
deriving DecidableEq, Repr

/-- Database state for the ingredient aggregate. -/
structure IngDB where
  nextId : Nat
  ingredients : List IngredientRow
  tiers : List TierRow
deriving DecidableEq, Repr

/-- The ingredient_quantities row built for one supplied tier:
quantity_grams is qty.quantity_grams || null, price is qty.price || 0,
is_available is qty.is_available !== false. -/
def mkTierRow (iid tid : Nat) (q : TierInput) : TierRow :=
  { id := tid
    ingredient_id := iid
    quantity_value := q.quantity_value
    quantity_grams := jsNumOrNull q.quantity_grams
    price := jsNumOr q.price 0
    is_available := q.is_available != some false }

/-- The tier rows an ingredient write inserts, ids drawn sequentially
starting at tid. -/
def mkTierRows (iid : Nat) : Nat → List TierInput → List TierRow
  | _, [] => []
  | tid, q :: qs => mkTierRow iid tid q :: mkTierRows iid (tid + 1) qs

/-- The tiers currently persisted for one ingredient
(SELECT * FROM ingredient_quantities WHERE ingredient_id = $1). -/
def tiersOf (db : IngDB) (iid : Nat) : List TierRow :=
  db.tiers.filter (fun t => t.ingredient_id == iid)

/-- Insert the tier rows one at a time; tierOk is the storage layer
accepting or refusing each INSERT (for example the
UNIQUE(ingredient_id, quantity_value) constraint).  A refusal raises,
which the enclosing transaction turns into a rollback. -/
def insertTiers (tierOk : TierRow → Bool) :
    IngDB → Nat → List TierInput → Except AppError (IngDB × List TierRow)
  | db, _, [] => .ok (db, [])
  | db, iid, q :: qs =>
    let row := mkTierRow iid db.nextId q
    if tierOk row then
      match insertTiers tierOk
          { db with nextId := db.nextId + 1, tiers := db.tiers ++ [row] }
          iid qs with
      | .ok (db2, rows) => .ok (db2, row :: rows)
      | .error e => .error e
    else
      .error ⟨"ingredient quantity insert failed", 500⟩

/-- The body of a POST /api/ingredients request. -/
structure CreateIngredientInput where
  food_type_id : Option Nat := none
  specification_id : Option Nat := none
  cook_type_id : Option Nat := none
  name : Option String := none
  description : Option String := none
  quantities : List TierInput := []
deriving DecidableEq, Repr

/-- The ingredients row createIngredient builds (is_active defaults to
true in the schema). -/
def newIngredientRow (db : IngDB) (input : CreateIngredientInput) (ft now : Nat) :
    IngredientRow :=
  { id := db.nextId
    food_type_id := ft
    specification_id := input.specification_id
    cook_type_id := input.cook_type_id
    name := input.name
    description := input.description
    is_active := true
    updated_at := now }

/-- createIngredient (POST /api/ingredients): validate food_type_id,
then inside one transaction insert the ingredient row and every
supplied quantity tier; any tier-insert failure rolls the whole
creation back. -/
def createIngredient (tierOk : TierRow → Bool) (db : IngDB)
    (input : CreateIngredientInput) (now : Nat) :
    IngDB × Except AppError (IngredientRow × List TierRow) :=
  match input.food_type_id with
  | none => (db, .error ⟨"Food type ID is required", 400⟩)
  | some ft =>
    let ing := newIngredientRow db input ft now
    let db1 : IngDB :=
      { db with nextId := db.nextId + 1, ingredients := db.ingredients ++ [ing] }
    match insertTiers tierOk db1 db.nextId input.quantities with
    | .ok (db2, rows) => (db2, .ok (ing, rows))
    | .error e => (db, .error e)

/-- The body of a PUT /api/ingredients/:id request; a missing field is
none and leaves the column unchanged (COALESCE / undefined check),
and a missing quantities field leaves the tier set untouched. -/
structure UpdateIngredientInput where
  food_type_id : Option Nat := none
  specification_id : Option (Option Nat) := none
  cook_type_id : Option (Option Nat) := none
  name : Option String := none
  description : Option String := none
  is_active : Option Bool := none
  quantities : Option (List TierInput) := none
deriving DecidableEq, Repr

/-- The ingredients row updateIngredient writes: supplied fields
overwrite, absent fields keep the column. -/
def ingredientWrite (ing : IngredientRow) (input : UpdateIngredientInput) (now : Nat) :
    IngredientRow :=
  { ing with
    food_type_id := input.food_type_id.getD ing.food_type_id
    specification_id := input.specification_id.getD ing.specification_id
    cook_type_id := input.cook_type_id.getD ing.cook_type_id
    name := input.name.or ing.name
    description := input.description.or ing.description
    is_active := input.is_active.getD ing.is_active
    updated_at := now }

/-- Write back one ingredients row. -/
def saveIngredient (db : IngDB) (ing : IngredientRow) : IngDB :=
  { db with ingredients := db.ingredients.map (fun x => if x.id == ing.id then ing else x) }

/-- updateIngredient (PUT /api/ingredients/:id): partial field update
of the ingredient row; when a quantities array is supplied (even
empty), DELETE FROM ingredient_quantities WHERE ingredient_id = id and
re-insert the supplied array as the complete new tier set; when it is
omitted, SELECT the existing tiers and return them unchanged.  All of
it runs in one transaction: a failure rolls everything back. -/
def updateIngredient (tierOk : TierRow → Bool) (db : IngDB) (iid : Nat)
    (input : UpdateIngredientInput) (now : Nat) :
    IngDB × Except AppError (IngredientRow × List TierRow) :=
  match db.ingredients.find? (fun i => i.id == iid) with
  | none => (db, .error ⟨"Ingredient not found", 404⟩)
  | some ing =>
    let ing' := ingredientWrite ing input now
    let db1 := saveIngredient db ing'
    match input.quantities with
    | some qs =>
      let db2 : IngDB :=
        { db1 with tiers := db1.tiers.filter (fun t => !(t.ingredient_id == iid)) }
      match insertTiers tierOk db2 iid qs with
      | .ok (db3, rows) => (db3, .ok (ing', rows))
      | .error e => (db, .error e)
    | none => (db1, .ok (ing', tiersOf db1 iid))

/-! ## Menu item status toggle -/

/-- The menu_item_status enum of the schema: draft or active. -/
inductive MenuStatus where
  | draft
  | active
deriving DecidableEq, Repr

/-- A persisted menu_items row (the columns toggleMenuStatus can see). -/
structure MenuItemRow where
  id : Nat
  location_id : Nat
  name : String
  price : ℚ
  status : MenuStatus
  description : Option String
deriving DecidableEq, Repr

/-- The row toggleMenuStatus writes: status becomes active when it
was draft and draft otherwise, nothing else changes. -/
def toggleWrite (m : MenuItemRow) : MenuItemRow :=
  { m with status := if m.status = MenuStatus.draft then MenuStatus.active else MenuStatus.draft }

/-- toggleMenuStatus (PATCH /api/menu/:id/toggle-status): load the
item, set status to active when it was draft and to draft otherwise,
and save. -/
def toggleMenuStatus (db : List MenuItemRow) (mid : Nat) :
    List MenuItemRow × Except AppError MenuItemRow :=
  match db.find? (fun m => m.id == mid) with
  | none => (db, .error ⟨"Menu item not found", 404⟩)
  | some m =>
    (db.map (fun x => if x.id == mid then toggleWrite m else x), .ok (toggleWrite m))

/-! ## Login -/

/-- A persisted users row (the columns loginUser touches). -/
structure UserRow where
  id : Nat
  location_id : Nat
  email : String
  password_hash : String
  name : String
  role : String
  account_status : String
deriving DecidableEq, Repr

/-- What a successful login responds with: the user record and the
token, which is literally the user id. -/
structure LoginOk where
  user : UserRow
  token : Nat
deriving DecidableEq, Repr

/-- loginUser, TypeORM variant (users controller): find the user by
email, verify the password first (bcrypt.compare is the verify
oracle), then auto-activate an inactive admin, then reject a still
inactive account.  Returns the possibly updated users table with
the result. -/
def loginUserTypeorm (verify : String → String → Bool)
    (users : List UserRow) (email password : String) :
    List UserRow × Except AppError LoginOk :=
  if email = "" ∨ password = "" then
    (users, .error ⟨"Email and password are required", 400⟩)
  else
    match users.find? (fun u => u.email == email) with
    | none => (users, .error ⟨"Invalid credentials", 401⟩)
    | some u =>
      if ¬ verify password u.password_hash then
        (users, .error ⟨"Invalid credentials", 401⟩)
      else
        let u' : UserRow :=
          if u.account_status ≠ "active" ∧ u.role = "admin" then
            { u with account_status := "active" }
          else u
        let users' := users.map (fun x => if x.id == u.id then u' else x)
        if u'.account_status ≠ "active" then
          (users', .error ⟨"Account is not active", 401⟩)
        else
          (users', .ok ⟨u', u'.id⟩)

/-- loginUser, SQL variant (menu controller file): the lookup joins
locations (a user whose location row is missing yields no row), the
account_status check runs before the password is verified, and there
is no auto-activation. -/
def loginUserSql (verify : String → String → Bool) (locationIds : List Nat)
    (users : List UserRow) (email password : String) :
    Except AppError LoginOk :=
  if email = "" ∨ password = "" then
    .error ⟨"Email and password are required", 400⟩
  else
    match users.find? (fun u => u.email == email && locationIds.contains u.location_id) with
    | none => .error ⟨"Invalid credentials", 401⟩
    | some u =>
      if u.account_status ≠ "active" then
        .error ⟨"Account is not active", 401⟩
      else if ¬ verify password u.password_hash then
        .error ⟨"Invalid credentials", 401⟩
      else
        .ok ⟨u, u.id⟩

/-! ## Definitions taken from the specification text (refinement targets)

specItemTotal and specOrderTotal follow the specification sentence
"computes total_price = sum of (unit_price x quantity) over supplied
items (defaulting missing unit_price to 0 and missing quantity to 1)":
the default applies exactly when the field is missing, unlike the
source's JS truthiness defaulting which also fires on a supplied 0. -/

/-- Modelled from the spec: per-item total with defaults applied only
to missing fields. -/
def specItemTotal (it : OrderItemInput) : ℚ :=
  it.unit_price.getD 0 * it.quantity.getD 1

/-- Modelled from the spec: order total with defaults applied only to
missing fields. -/
def specOrderTotal (items : List OrderItemInput) : ℚ :=
  (items.map specItemTotal).sum

/-! ## Traces of successive order creations -/

/-- Run a list of createOrder requests one after the other (every
insert accepted) and collect the order_number assigned by each
successful creation. -/
def createRun (db : OrdersDB) (now : Nat) : List CreateOrderInput → OrdersDB × List String
  | [] => (db, [])
  | inp :: rest =>
    match createOrder (fun _ => true) db inp now with
    | (db1, .ok (o, _)) =>
      let next := createRun db1 now rest
      (next.1, o.order_number :: next.2)
    | (db1, .error _) => createRun db1 now rest

/-! ## Concrete instances used by witnesses and counterexamples -/

/-- An empty order database. -/
def emptyOrdersDB : OrdersDB :=
  { nextId := 1, orders := [], orderItems := [], totalPreps := fun _ => 0 }

/-- The items list of the specification's worked example:
unit_price 10 quantity 2, and unit_price 5 quantity 1. -/
def exampleItems : List OrderItemInput :=
  [{ quantity := some 2, unit_price := some 10 },
   { quantity := some 1, unit_price := some 5 }]

/-- The worked-example creation request at location 1, customer 7. -/
def exampleInput : CreateOrderInput :=
  { location_id := some 1, customer_id := some 7, items := exampleItems }

/-- A creation request supplying an explicit quantity of 0. -/
def zeroQtyInput : CreateOrderInput :=
  { location_id := some 1,
    items := [{ quantity := some 0, unit_price := some 10 }] }

/-- A minimal one-item creation request at location 1. -/
def oneItemInput : CreateOrderInput :=
  { location_id := some 1, items := [{ quantity := some 1, unit_price := some 1 }] }

/-- The databases reached by creating two orders at location 1,
deleting the first, then creating a third. -/
def traceStep1 : OrdersDB × Except AppError (OrderRow × List OrderItemRow) :=
  createOrder (fun _ => true) emptyOrdersDB oneItemInput 0

/-- Second creation of the delete-interleaved trace. -/
def traceStep2 : OrdersDB × Except AppError (OrderRow × List OrderItemRow) :=
  createOrder (fun _ => true) traceStep1.1 oneItemInput 0

/-- Deletion of the first order of the trace. -/
def traceStep3 : OrdersDB × Except AppError Unit :=
  deleteOrder traceStep2.1 1

/-- Third creation of the trace, after the deletion. -/
def traceStep4 : OrdersDB × Except AppError (OrderRow × List OrderItemRow) :=
  createOrder (fun _ => true) traceStep3.1 oneItemInput 0

/-- An ingredient-creation request with two quantity tiers. -/
def exampleIngredientInput : CreateIngredientInput :=
  { food_type_id := some 3,
    name := some "Chicken",
    quantities := [⟨"100g", some 100, some 5, none⟩, ⟨"250g", some 250, some 11, none⟩] }

/-- An empty ingredient database. -/
def emptyIngDB : IngDB :=
  { nextId := 1, ingredients := [], tiers := [] }

/-- A persisted ingredient (id 1). -/
def seededIngredient : IngredientRow :=
  { id := 1, food_type_id := 3, specification_id := none,
    cook_type_id := none, name := some "Chicken",
    description := none, is_active := true, updated_at := 0 }

/-- An ingredient database holding seededIngredient with two persisted
tiers, and nextId 4. -/
def seededIngDB : IngDB :=
  { nextId := 4
    ingredients := [seededIngredient]
    tiers := [{ id := 2, ingredient_id := 1, quantity_value := "100g",
                quantity_grams := some 100, price := 5, is_available := true },
              { id := 3, ingredient_id := 1, quantity_value := "250g",
                quantity_grams := some 250, price := 11, is_available := true }] }

/-- An update request replacing the tier set with a single new tier. -/
def replaceTiersInput : UpdateIngredientInput :=
  { quantities := some [⟨"500g", some 500, some 20, none⟩] }

/-- An update request supplying an empty quantities array. -/
def emptyTiersInput : UpdateIngredientInput :=
  { quantities := some [] }

/-- An update request that does not mention quantities. -/
def keepTiersInput : UpdateIngredientInput :=
  { name := some "Free-range chicken" }

/-- A draft menu item. -/
def draftBurger : MenuItemRow :=
  { id := 1, location_id := 1, name := "Burger", price := 12, status := MenuStatus.draft,
    description := none }

/-- An active menu item. -/
def activeSalad : MenuItemRow :=
  { id := 2, location_id := 1, name := "Salad", price := 9, status := MenuStatus.active,
    description := none }

/-- A menu database with one draft item and one active item. -/
def exampleMenuDB : List MenuItemRow :=
  [draftBurger, activeSalad]

/-- An inactive staff user. -/
def inesUser : UserRow :=
  { id := 1, location_id := 1, email := "ines@thrive.io", password_hash := "h1",
    name := "Ines", role := "staff", account_status := "inactive" }

/-- An active staff user. -/
def anaUser : UserRow :=
  { id := 2, location_id := 1, email := "ana@thrive.io", password_hash := "h2",
    name := "Ana", role := "staff", account_status := "active" }

/-- A users table with one inactive staff user and one active staff
user. -/
def exampleUsers : List UserRow :=
  [inesUser, anaUser]

/-- A password-verification oracle that rejects everything: every
attempt presents a wrong password. -/
def rejectAll : String → String → Bool := fun _ _ => false

/-- A persisted order (id 1) at location 1 for customer 7, status
received, not yet delivered. -/
def seededOrder : OrderRow :=
  { id := 1, location_id := 1, customer_id := some 7,
    order_number := orderNumberOf 1, status := "received",
    total_price := 25, notes := none, order_date := 0,
    delivered_at := none, updated_at := 0 }

/-- An order (id 9) already in the terminal status delivered. -/
def deliveredOrder : OrderRow :=
  { id := 9, location_id := 1, customer_id := none,
    order_number := orderNumberOf 2, status := "delivered",
    total_price := 5, notes := none, order_date := 0,
    delivered_at := some 3, updated_at := 3 }

/-- An orders database holding seededOrder with one item, plus
deliveredOrder, and customer 7's counter at 1. -/
def seededOrdersDB : OrdersDB :=
  { nextId := 10
    orders := [seededOrder, deliveredOrder]
    orderItems := [{ id := 2, order_id := 1, menu_item_id := none, quantity := 2,
                     unit_price := 10, total_price := 20, notes := none }]
    totalPreps := fun i => if i = 7 then 1 else 0 }

/-! ## Shared lemmas -/

/-- Decoding a digit character gives back the digit. -/
lemma charDigit_digitChar {d : Nat} (h : d < 10) : charDigit (Nat.digitChar d) = d := by
  interval_cases d <;> rfl

/-- A run of zero digits denotes zero. -/
lemma ofDigits_replicate_zero (k : Nat) : Nat.ofDigits 10 (List.replicate k 0) = 0 := by
  induction k with
  | zero => simp
  | succ k ih => simp [List.replicate_succ, Nat.ofDigits_cons, ih]

/-- Decoding the generated order number recovers its sequence value:
zero padding never changes the denoted number and padStart never
truncates. -/
lemma orderSeqOf_orderNumberOf (n : Nat) : orderSeqOf (orderNumberOf n) = n := by
  have hdata : (orderNumberOf n).data
      = 'O' :: 'R' :: 'D' :: '-' :: ((padLeft5 (natDigits n)).map Nat.digitChar) := by
    simp [orderNumberOf, orderNumberDigits, String.data_append]
  have hlt : ∀ d ∈ padLeft5 (natDigits n), d < 10 := by
    intro d hd
    rcases List.mem_append.mp hd with h | h
    · have := List.eq_of_mem_replicate h
      omega
    · exact Nat.digits_lt_base (by omega) (List.mem_reverse.mp h)
  have hmap : ((padLeft5 (natDigits n)).map Nat.digitChar).map charDigit
      = padLeft5 (natDigits n) := by
    rw [List.map_map]
    conv_rhs =>
      rw [show padLeft5 (natDigits n) = (padLeft5 (natDigits n)).map id from
        (List.map_id _).symm]
    exact List.map_congr_left (fun d hd => charDigit_digitChar (hlt d hd))
  rw [orderSeqOf, hdata]
  simp only [List.drop_succ_cons, List.drop_zero, hmap]
  rw [padLeft5, List.reverse_append, List.reverse_replicate, natDigits, List.reverse_reverse]
  rw [Nat.ofDigits_append, ofDigits_replicate_zero, Nat.ofDigits_digits]
  ring

/-- Replacing the found row in an update-by-id map keeps it findable. -/
lemma find?_map_if {α : Type} (p : α → Bool) (a : α) (l : List α) (o : α)
    (hfind : l.find? p = some o) (hpa : p a = true) :
    (l.map (fun x => if p x then a else x)).find? p = some a := by
  induction l with
  | nil => simp at hfind
  | cons x xs ih =>
    rw [List.map_cons]
    by_cases hp : p x
    · rw [if_pos hp]
      exact List.find?_cons_of_pos _ hpa
    · rw [if_neg hp, List.find?_cons_of_neg _ hp]
      rw [List.find?_cons_of_neg _ hp] at hfind
      exact ih hfind

/-- An update-by-id map preserves any field the replacement row keeps,
provided only the replaced row matches the predicate. -/
lemma map_map_if_of_unique {α β : Type} (p : α → Bool) (a o : α) (f : α → β) (l : List α)
    (huniq : ∀ x ∈ l, p x = true → x = o) (hf : f a = f o) :
    (l.map (fun x => if p x then a else x)).map f = l.map f := by
  rw [List.map_map]
  apply List.map_congr_left
  intro x hx
  by_cases hp : p x
  · have hxo := huniq x hx hp
    subst hxo
    simp only [Function.comp_apply, if_pos hp, hf]
  · simp only [Function.comp_apply, if_neg hp]

/-- Rows the update-by-id predicate rejects survive the map unchanged. -/
lemma mem_map_if_of_neg {α : Type} (p : α → Bool) (a : α) (l : List α) (x : α)
    (hx : x ∈ l) (hpx : p x = false) :
    x ∈ l.map (fun y => if p y then a else y) :=
  List.mem_map.mpr ⟨x, hx, by simp [hpx]⟩

/-- A status in the enum is not the empty string. -/
lemma mem_validStatuses_ne_empty {st : String} (h : st ∈ validStatuses) : st ≠ "" := by
  fin_cases h <;> decide

/-- What insertItems does when it succeeds: it returns exactly the
rows built from the supplied items, appended to the item table, and
touches nothing else. -/
lemma insertItems_ok (itemOk : OrderItemRow → Bool) (oid : Nat) :
    ∀ (its : List OrderItemInput) (db db2 : OrdersDB) (rows : List OrderItemRow),
      insertItems itemOk db oid its = .ok (db2, rows) →
      rows = mkItemRows oid db.nextId its ∧
      db2.orders = db.orders ∧
      db2.orderItems = db.orderItems ++ rows ∧
      db2.nextId = db.nextId + its.length ∧
      db2.totalPreps = db.totalPreps := by
  intro its
  induction its with
  | nil =>
    intro db db2 rows h
    simp only [insertItems, Except.ok.injEq, Prod.mk.injEq] at h
    obtain ⟨h1, h2⟩ := h
    subst h1
    subst h2
    simp [mkItemRows]
  | cons it rest ih =>
    intro db db2 rows h
    simp only [insertItems] at h
    by_cases hok : itemOk (mkItemRow oid db.nextId it)
    · rw [if_pos hok] at h
      rcases hrec : insertItems itemOk
          { db with nextId := db.nextId + 1,
                    orderItems := db.orderItems ++ [mkItemRow oid db.nextId it] }
          oid rest with e | ⟨db2', rows'⟩
      · rw [hrec] at h
        cases h
      · rw [hrec] at h
        simp only [Except.ok.injEq, Prod.mk.injEq] at h
        obtain ⟨hdb, hrows⟩ := h
        obtain ⟨hr, ho, hi, hn, hp⟩ := ih _ _ _ hrec
        subst hdb
        subst hrows
        refine ⟨?_, by simpa using ho, ?_, ?_, by simpa using hp⟩
        · simp only [mkItemRows, hr]
        · rw [hi]
          simp [hr]
        · simp only [List.length_cons]
          simp only at hn
          omega
    · rw [if_neg hok] at h
      cases h

/-- insertItems with an all-accepting storage layer always succeeds. -/
lemma insertItems_true (oid : Nat) :
    ∀ (its : List OrderItemInput) (db : OrdersDB),
      ∃ db2 rows, insertItems (fun _ => true) db oid its = .ok (db2, rows) := by
  intro its
  induction its with
  | nil => intro db; exact ⟨db, [], rfl⟩
  | cons it rest ih =>
    intro db
    obtain ⟨db2, rows, h⟩ := ih
      { db with nextId := db.nextId + 1,
                orderItems := db.orderItems ++ [mkItemRow oid db.nextId it] }
    refine ⟨db2, mkItemRow oid db.nextId it :: rows, ?_⟩
    simp [insertItems, h]

/-- What insertTiers does when it succeeds: exactly the rows built
from the supplied tiers, appended to the tier table, and nothing else
is touched. -/
lemma insertTiers_ok (tierOk : TierRow → Bool) (iid : Nat) :
    ∀ (qs : List TierInput) (db db2 : IngDB) (rows : List TierRow),
      insertTiers tierOk db iid qs = .ok (db2, rows) →
      rows = mkTierRows iid db.nextId qs ∧
      db2.ingredients = db.ingredients ∧
      db2.tiers = db.tiers ++ rows ∧
      db2.nextId = db.nextId + qs.length := by
  intro qs
  induction qs with
  | nil =>
    intro db db2 rows h
    simp only [insertTiers, Except.ok.injEq, Prod.mk.injEq] at h
    obtain ⟨h1, h2⟩ := h
    subst h1
    subst h2
    simp [mkTierRows]
  | cons q rest ih =>
    intro db db2 rows h
    simp only [insertTiers] at h
    by_cases hok : tierOk (mkTierRow iid db.nextId q)
    · rw [if_pos hok] at h
      rcases hrec : insertTiers tierOk
          { db with nextId := db.nextId + 1,
                    tiers := db.tiers ++ [mkTierRow iid db.nextId q] }
          iid rest with e | ⟨db2', rows'⟩
      · rw [hrec] at h
        cases h
      · rw [hrec] at h
        simp only [Except.ok.injEq, Prod.mk.injEq] at h
        obtain ⟨hdb, hrows⟩ := h
        obtain ⟨hr, hi, ht, hn⟩ := ih _ _ _ hrec
        subst hdb
        subst hrows
        refine ⟨?_, by simpa using hi, ?_, ?_⟩
        · simp only [mkTierRows, hr]
        · rw [ht]
          simp [hr]
        · simp only [List.length_cons]
          simp only at hn
          omega
    · rw [if_neg hok] at h
      cases h

/-- Every row mkTierRows builds belongs to the given ingredient. -/
lemma mkTierRows_ingredient_id (iid : Nat) :
    ∀ (qs : List TierInput) (tid : Nat) (r : TierRow),
      r ∈ mkTierRows iid tid qs → r.ingredient_id = iid := by
  intro qs
  induction qs with
  | nil => intro tid r h; simp [mkTierRows] at h
  | cons q rest ih =>
    intro tid r h
    simp only [mkTierRows, List.mem_cons] at h
    rcases h with h | h
    · subst h; rfl
    · exact ih _ _ h

/-- Every row mkItemRows builds belongs to the given order. -/
lemma mkItemRows_order_id (oid : Nat) :
    ∀ (its : List OrderItemInput) (iid : Nat) (r : OrderItemRow),
      r ∈ mkItemRows oid iid its → r.order_id = oid := by
  intro its
  induction its with
  | nil => intro iid r h; simp [mkItemRows] at h
  | cons it rest ih =>
    intro iid r h
    simp only [mkItemRows, List.mem_cons] at h
    rcases h with h | h
    · subst h; rfl
    · exact ih _ _ h

/-- Full characterization of a successful createOrder: the returned
header is the constructed row, the returned items are exactly the rows
built from the supplied items, both are appended to their tables, and
the referenced customer's counter is bumped by one. -/
lemma createOrder_ok (itemOk : OrderItemRow → Bool) (db : OrdersDB)
    (input : CreateOrderInput) (now : Nat) (o : OrderRow) (rows : List OrderItemRow)
    (h : (createOrder itemOk db input now).2 = .ok (o, rows)) :
    ∃ loc, input.location_id = some loc ∧
      o = newOrderRow db input loc now ∧
      rows = mkItemRows db.nextId (db.nextId + 1) input.items ∧
      (createOrder itemOk db input now).1.orders = db.orders ++ [o] ∧
      (createOrder itemOk db input now).1.orderItems = db.orderItems ++ rows ∧
      (createOrder itemOk db input now).1.totalPreps
        = bumpPreps db.totalPreps input.customer_id 1 ∧
      (createOrder itemOk db input now).1.nextId = db.nextId + 1 + input.items.length := by
  rcases hloc : input.location_id with _ | loc
  · rw [createOrder, hloc] at h
    simp at h
  · refine ⟨loc, rfl, ?_⟩
    rw [createOrder, hloc] at h ⊢
    dsimp only at h ⊢
    by_cases hitems : input.items = []
    · rw [if_pos hitems] at h
      simp at h
    · rw [if_neg hitems] at h ⊢
      rcases hrec : insertItems itemOk
          (insertOrderRow { db with nextId := db.nextId + 1 } (newOrderRow db input loc now))
          db.nextId input.items with e | ⟨db2, rows'⟩
      · rw [hrec] at h
        simp at h
      · rw [hrec] at h
        dsimp only at h ⊢
        simp only [Except.ok.injEq, Prod.mk.injEq] at h
        obtain ⟨ho, hrows⟩ := h
        obtain ⟨hr, horders, hitems2, hnext, hpreps⟩ := insertItems_ok itemOk db.nextId _ _ _ _ hrec
        subst ho
        subst hrows
        simp only [insertOrderRow] at horders hitems2 hnext hpreps
        refine ⟨rfl, by simpa using hr, by simpa using horders, by simpa using hitems2,
          by simpa using hpreps, ?_⟩
        omega

/-- Full characterization of a successful createIngredient. -/
lemma createIngredient_ok (tierOk : TierRow → Bool) (db : IngDB)
    (input : CreateIngredientInput) (now : Nat) (ing : IngredientRow) (rows : List TierRow)
    (h : (createIngredient tierOk db input now).2 = .ok (ing, rows)) :
    ∃ ft, input.food_type_id = some ft ∧
      ing = newIngredientRow db input ft now ∧
      rows = mkTierRows db.nextId (db.nextId + 1) input.quantities ∧
      (createIngredient tierOk db input now).1.ingredients = db.ingredients ++ [ing] ∧
      (createIngredient tierOk db input now).1.tiers = db.tiers ++ rows ∧
      (createIngredient tierOk db input now).1.nextId
        = db.nextId + 1 + input.quantities.length := by
  rcases hft : input.food_type_id with _ | ft
  · rw [createIngredient, hft] at h
    simp at h
  · refine ⟨ft, rfl, ?_⟩
    rw [createIngredient, hft] at h ⊢
    dsimp only at h ⊢
    rcases hrec : insertTiers tierOk
        { db with nextId := db.nextId + 1,
                  ingredients := db.ingredients ++ [newIngredientRow db input ft now] }
        db.nextId input.quantities with e | ⟨db2, rows'⟩
    · rw [hrec] at h
      simp at h
    · rw [hrec] at h
      dsimp only at h ⊢
      simp only [Except.ok.injEq, Prod.mk.injEq] at h
      obtain ⟨hi, hrows⟩ := h
      obtain ⟨hr, hing, htiers, hnext⟩ := insertTiers_ok tierOk db.nextId _ _ _ _ hrec
      subst hi
      subst hrows
      refine ⟨rfl, by simpa using hr, by simpa using hing, by simpa using htiers, ?_⟩
      simp only at hnext
      omega

/-- A failed createOrder leaves the database exactly as it was
(transaction rollback). -/
lemma createOrder_error (itemOk : OrderItemRow → Bool) (db : OrdersDB)
    (input : CreateOrderInput) (now : Nat) (e : AppError)
    (h : (createOrder itemOk db input now).2 = .error e) :
    (createOrder itemOk db input now).1 = db := by
  rw [createOrder]
  rcases hloc : input.location_id with _ | loc
  · rfl
  · dsimp only
    by_cases hitems : input.items = []
    · rw [if_pos hitems]
    · rw [if_neg hitems]
      rcases hrec : insertItems itemOk
          (insertOrderRow { db with nextId := db.nextId + 1 } (newOrderRow db input loc now))
          db.nextId input.items with e' | ⟨db2, rows'⟩
      · rfl
      · rw [createOrder, hloc] at h
        dsimp only at h
        rw [if_neg hitems, hrec] at h
        simp at h

/-- A failed createIngredient leaves the database exactly as it was
(transaction rollback). -/
lemma createIngredient_error (tierOk : TierRow → Bool) (db : IngDB)
    (input : CreateIngredientInput) (now : Nat) (e : AppError)
    (h : (createIngredient tierOk db input now).2 = .error e) :
    (createIngredient tierOk db input now).1 = db := by
  rw [createIngredient]
  rcases hft : input.food_type_id with _ | ft
  · rfl
  · dsimp only
    rcases hrec : insertTiers tierOk
        { db with nextId := db.nextId + 1,
                  ingredients := db.ingredients ++ [newIngredientRow db input ft now] }
        db.nextId input.quantities with e' | ⟨db2, rows'⟩
    · rfl
    · rw [createIngredient, hft] at h
      dsimp only at h
      rw [hrec] at h
      simp at h

/-- What updateOrderStatus does on a found order and an enum status. -/
lemma updateOrderStatus_found (db : OrdersDB) (o : OrderRow) (st : String) (now : Nat)
    (hfind : db.orders.find? (fun x => x.id == o.id) = some o)
    (hst : st ∈ validStatuses) :
    updateOrderStatus db o.id (some st) now
      = (saveOrder db (statusWrite o st now), .ok (statusWrite o st now)) := by
  have hc : validStatuses.contains st = true := by
    simpa using hst
  rw [updateOrderStatus]
  rw [if_neg (mem_validStatuses_ne_empty hst), if_pos hc, hfind]

/-- updateOrderStatus on a status outside the enum (or empty) fails
with a 400 error and leaves the database unchanged. -/
lemma updateOrderStatus_invalid (db : OrdersDB) (oid : Nat) (st : String) (now : Nat)
    (hst : st ∉ validStatuses) :
    ∃ e, updateOrderStatus db oid (some st) now = (db, .error e) ∧ e.statusCode = 400 := by
  have hc : ¬ validStatuses.contains st = true := by
    simpa using hst
  rw [updateOrderStatus]
  by_cases hemp : st = ""
  · rw [if_pos hemp]
    exact ⟨_, rfl, rfl⟩
  · rw [if_neg hemp, if_neg hc]
    exact ⟨_, rfl, rfl⟩

/-- What updateOrder does on a found order whose written row carries
an enum status: the database accepts the UPDATE. -/
lemma updateOrder_found_valid (db : OrdersDB) (o : OrderRow)
    (customer_id : Option (Option Nat)) (notes : Option (Option String))
    (status : Option String) (now : Nat)
    (hfind : db.orders.find? (fun x => x.id == o.id) = some o)
    (hst : validStatuses.contains (putWrite o customer_id notes status now).status = true) :
    updateOrder db o.id customer_id notes status now
      = (saveOrder db (putWrite o customer_id notes status now),
         .ok (putWrite o customer_id notes status now)) := by
  rw [updateOrder, hfind]
  dsimp only
  rw [if_pos hst]

/-- What updateOrder does on a found order whose written row carries a
status outside the order_status enum: the database refuses the
UPDATE, the handler surfaces 400 Invalid input format, and the row is
unchanged. -/
lemma updateOrder_found_invalid (db : OrdersDB) (o : OrderRow)
    (customer_id : Option (Option Nat)) (notes : Option (Option String))
    (status : Option String) (now : Nat)
    (hfind : db.orders.find? (fun x => x.id == o.id) = some o)
    (hst : ¬ validStatuses.contains (putWrite o customer_id notes status now).status = true) :
    updateOrder db o.id customer_id notes status now
      = (db, .error ⟨"Invalid input format", 400⟩) := by
  rw [updateOrder, hfind]
  dsimp only
  rw [if_neg hst]

/-- What deleteOrder does when exactly one row carries the id: the row
disappears, its items disappear, and its customer's counter drops by
one. -/
lemma deleteOrder_found (db : OrdersDB) (oid : Nat) (o : OrderRow)
    (hfilter : db.orders.filter (fun x => x.id == oid) = [o]) :
    (deleteOrder db oid).2 = .ok () ∧
    (deleteOrder db oid).1.orders = db.orders.filter (fun x => !(x.id == oid)) ∧
    (deleteOrder db oid).1.orderItems = db.orderItems.filter (fun it => !(it.order_id == oid)) ∧
    (deleteOrder db oid).1.totalPreps = bumpPreps db.totalPreps o.customer_id (-1) := by
  rw [deleteOrder, hfilter, if_neg (show ([o] : List OrderRow) ≠ [] by simp)]
  exact ⟨rfl, rfl, rfl, rfl⟩

/-- JS defaulting with default 0 coincides with missing-only
defaulting (a supplied 0 and the default agree). -/
lemma jsNumOr_zero (x : Option ℚ) : jsNumOr x 0 = x.getD 0 := by
  cases x with
  | none => rfl
  | some v =>
    by_cases hv : v = 0 <;> simp [jsNumOr, hv]

/-- When the supplied quantity is not 0, the source's per-item total
agrees with the spec's missing-only defaulting formula. -/
lemma itemTotal_eq_spec (it : OrderItemInput) (h : it.quantity ≠ some 0) :
    itemTotal it = specItemTotal it := by
  rw [itemTotal, specItemTotal, jsNumOr_zero]
  congr 1
  cases hq : it.quantity with
  | none => rfl
  | some v =>
    have hv : v ≠ 0 := by
      rintro rfl
      exact h hq
    simp [jsNumOr, hv]

/-- Every row mkItemRows builds has total = unit price x quantity. -/
lemma mkItemRows_total (oid : Nat) :
    ∀ (its : List OrderItemInput) (iid : Nat) (r : OrderItemRow),
      r ∈ mkItemRows oid iid its → r.total_price = r.unit_price * r.quantity := by
  intro its
  induction its with
  | nil => intro iid r h; simp [mkItemRows] at h
  | cons it rest ih =>
    intro iid r h
    simp only [mkItemRows, List.mem_cons] at h
    rcases h with h | h
    · subst h; rfl
    · exact ih _ _ h

/-- The source's order total agrees with the spec's formula when no
item supplies a quantity of 0. -/
lemma orderTotalPrice_eq_spec (items : List OrderItemInput)
    (h : ∀ it ∈ items, it.quantity ≠ some 0) :
    orderTotalPrice items = specOrderTotal items :=
  congrArg List.sum (List.map_congr_left fun it hit => itemTotal_eq_spec it (h it hit))

/-- Appending one order of the location increments its order count. -/
lemma countAt_append (db db' : OrdersDB) (o : OrderRow) (loc : Nat)
    (horders : db'.orders = db.orders ++ [o]) (holoc : o.location_id = loc) :
    countAt db' loc = countAt db loc + 1 := by
  rw [countAt, countAt, horders, List.filter_append]
  simp [holoc]

/-- createOrder with an all-accepting storage layer succeeds on any
valid request. -/
lemma createOrder_true_ok (db : OrdersDB) (inp : CreateOrderInput) (now loc : Nat)
    (hloc : inp.location_id = some loc) (hitems : inp.items ≠ []) :
    ∃ o rows, (createOrder (fun _ => true) db inp now).2 = .ok (o, rows) := by
  rw [createOrder, hloc]
  dsimp only
  rw [if_neg hitems]
  obtain ⟨db2, rows, hok⟩ := insertItems_true db.nextId inp.items
    (insertOrderRow { db with nextId := db.nextId + 1 } (newOrderRow db inp loc now))
  rw [hok]
  exact ⟨_, _, rfl⟩

/-- The order numbers assigned by an uninterrupted run of creations at
one location: consecutive sequence values starting just above the
initial count. -/
lemma createRun_numbers (loc now : Nat) :
    ∀ (inputs : List CreateOrderInput) (db : OrdersDB),
      (∀ inp ∈ inputs, inp.location_id = some loc ∧ inp.items ≠ []) →
      (createRun db now inputs).2
        = (List.range inputs.length).map (fun k => orderNumberOf (countAt db loc + k + 1)) := by
  intro inputs
  induction inputs with
  | nil => intro db _; simp [createRun]
  | cons inp rest ih =>
    intro db hins
    obtain ⟨hloc, hitems⟩ := hins inp (List.mem_cons_self _ _)
    obtain ⟨o, rows, hok⟩ := createOrder_true_ok db inp now loc hloc hitems
    obtain ⟨loc', hloc', ho, hrows, horders, hoi, hpreps, hnext⟩ :=
      createOrder_ok _ db inp now o rows hok
    have hl : loc' = loc := by
      rw [hloc] at hloc'
      exact (Option.some_inj.mp hloc').symm
    rw [hl] at ho
    rw [createRun]
    rcases hco : createOrder (fun _ => true) db inp now with ⟨db1, r⟩
    have hr : r = .ok (o, rows) := by
      rw [← hok, hco]
    subst hr
    dsimp only
    have hdb1 : db1.orders = db.orders ++ [o] := by
      rw [← horders, hco]
    have hcount : countAt db1 loc = countAt db loc + 1 :=
      countAt_append db db1 o loc hdb1 (by rw [ho]; rfl)
    have hrest : ∀ i ∈ rest, i.location_id = some loc ∧ i.items ≠ [] :=
      fun i hi => hins i (List.mem_cons_of_mem _ hi)
    rw [ih db1 hrest, hcount, ho]
    show orderNumberOf (countAt db loc + 1)
        :: (List.range rest.length).map (fun k => orderNumberOf (countAt db loc + 1 + k + 1))
      = (List.range (rest.length + 1)).map (fun k => orderNumberOf (countAt db loc + k + 1))
    rw [List.range_succ_eq_map, List.map_cons, List.map_map]
    refine congrArg₂ _ (by rw [Nat.add_zero]) ?_
    exact List.map_congr_left fun k _ => by
      show orderNumberOf _ = orderNumberOf _
      congr 1
      omega

/-- The decoded sequence of an uninterrupted creation run. -/
lemma createRun_seq (loc now : Nat) (inputs : List CreateOrderInput) (db : OrdersDB)
    (h : ∀ inp ∈ inputs, inp.location_id = some loc ∧ inp.items ≠ []) :
    ((createRun db now inputs).2).map orderSeqOf
      = (List.range inputs.length).map (fun k => countAt db loc + k + 1) := by
  rw [createRun_numbers loc now inputs db h, List.map_map]
  exact List.map_congr_left fun k _ => orderSeqOf_orderNumberOf _

/-! ## Claim theorems -/

/-- Claim C1, counterexample.  The claim computes the persisted total
as sum of (unit_price, defaulting to 0 when missing) times (quantity,
defaulting to 1 when missing).  The source uses JS truthiness
defaulting (item.quantity || 1), so a supplied quantity of 0 is also
replaced by 1: for items [{unit_price: 10, quantity: 0}] the code
persists total_price 10 while the claim's formula gives 0. -/
theorem C1_counterexample :
    (createOrder (fun _ => true) emptyOrdersDB zeroQtyInput 0).2
      = .ok (newOrderRow emptyOrdersDB zeroQtyInput 1 0, mkItemRows 1 2 zeroQtyInput.items) ∧
    (newOrderRow emptyOrdersDB zeroQtyInput 1 0).total_price = 10 ∧
    specOrderTotal zeroQtyInput.items = 0 ∧
    (newOrderRow emptyOrdersDB zeroQtyInput 1 0).total_price ≠ specOrderTotal zeroQtyInput.items := by
  refine ⟨?_, ?_, ?_, ?_⟩
  · rw [createOrder]
    norm_num [zeroQtyInput, insertItems, mkItemRows, insertOrderRow, newOrderRow, emptyOrdersDB]
  · norm_num [newOrderRow, orderTotalPrice, itemTotal, jsNumOr, zeroQtyInput]
  · norm_num [specOrderTotal, specItemTotal, zeroQtyInput]
  · norm_num [newOrderRow, orderTotalPrice, itemTotal, jsNumOr,
      specOrderTotal, specItemTotal, zeroQtyInput]

/-- Claim C1, amended: for every successful order creation the
persisted order's total_price is the sum over supplied items of
(unit_price || 0) times (quantity || 1), where || is JS truthiness
defaulting (a supplied 0 also falls back to the default); whenever no
item supplies a quantity of exactly 0 this coincides with the claim's
missing-only defaulting formula; and every created order item's
total_price equals its persisted unit_price times its persisted
quantity. -/
theorem C1_total_price (itemOk : OrderItemRow → Bool) (db : OrdersDB)
    (input : CreateOrderInput) (now : Nat) (o : OrderRow) (rows : List OrderItemRow)
    (h : (createOrder itemOk db input now).2 = .ok (o, rows)) :
    o.total_price = orderTotalPrice input.items ∧
    (∀ r ∈ rows, r.total_price = r.unit_price * r.quantity) ∧
    ((∀ it ∈ input.items, it.quantity ≠ some 0) →
      o.total_price = specOrderTotal input.items) := by
  obtain ⟨loc, hloc, ho, hrows, -, -, -, -⟩ := createOrder_ok itemOk db input now o rows h
  refine ⟨by rw [ho]; rfl, ?_, ?_⟩
  · intro r hr
    rw [hrows] at hr
    exact mkItemRows_total db.nextId input.items _ r hr
  · intro hq
    rw [ho]
    exact orderTotalPrice_eq_spec input.items hq

/-- Witness for C1_total_price at the specification's worked example:
items 10 x 2 and 5 x 1 give total_price 25.00. -/
theorem C1_total_price_witness :
    (newOrderRow emptyOrdersDB exampleInput 1 1).total_price = specOrderTotal exampleInput.items ∧
    specOrderTotal exampleInput.items = 25 := by
  have hok : (createOrder (fun _ => true) emptyOrdersDB exampleInput 1).2
      = .ok (newOrderRow emptyOrdersDB exampleInput 1 1, mkItemRows 1 2 exampleInput.items) := by
    rw [createOrder]
    norm_num [exampleInput, exampleItems, insertItems, mkItemRows, insertOrderRow, newOrderRow,
      emptyOrdersDB, List.cons_ne_nil]
  have h := C1_total_price (fun _ => true) emptyOrdersDB exampleInput 1
    (newOrderRow emptyOrdersDB exampleInput 1 1) (mkItemRows 1 2 exampleInput.items) hok
  refine ⟨h.2.2 ?_, ?_⟩
  · intro it hit
    simp only [exampleInput, exampleItems, List.mem_cons, List.not_mem_nil] at hit
    rcases hit with hit | hit | hit
    · subst hit; norm_num
    · subst hit; norm_num
    · exact absurd hit (by simp)
  · norm_num [specOrderTotal, specItemTotal, exampleInput, exampleItems]

/-- Claim C2, counterexample.  The claim asserts the per-location
sequence of assigned order_numbers is monotonically increasing over
successive creations.  The number is recomputed from the current row
count, so an interleaved deletion makes it fall back: after create
(ORD-00001), create (ORD-00002), delete of the first order, the next
creation is assigned ORD-00002 again, a duplicate rather than an
increase. -/
theorem C2_counterexample :
    traceStep1.2.map (fun p => p.1.order_number) = .ok (orderNumberOf 1) ∧
    traceStep2.2.map (fun p => p.1.order_number) = .ok (orderNumberOf 2) ∧
    traceStep3.2 = .ok () ∧
    traceStep4.2.map (fun p => p.1.order_number) = .ok (orderNumberOf 2) ∧
    orderSeqOf (orderNumberOf 2) = 2 := by
  refine ⟨?_, ?_, ?_, ?_, orderSeqOf_orderNumberOf 2⟩
  · rw [traceStep1]
    norm_num [createOrder, Except.map, oneItemInput, insertItems, insertOrderRow, newOrderRow,
      countAt, emptyOrdersDB, List.cons_ne_nil, mkItemRow, itemTotal, jsNumOr, bumpPreps]
  · rw [traceStep2, traceStep1]
    norm_num [createOrder, Except.map, oneItemInput, insertItems, insertOrderRow, newOrderRow,
      countAt, emptyOrdersDB, List.cons_ne_nil, mkItemRow, itemTotal, jsNumOr, bumpPreps]
  · rw [traceStep3, traceStep2, traceStep1]
    norm_num [createOrder, Except.map, oneItemInput, insertItems, insertOrderRow, newOrderRow,
      countAt, emptyOrdersDB, List.cons_ne_nil, mkItemRow, itemTotal, jsNumOr, bumpPreps,
      deleteOrder]
  · rw [traceStep4, traceStep3, traceStep2, traceStep1]
    norm_num [createOrder, Except.map, oneItemInput, insertItems, insertOrderRow, newOrderRow,
      countAt, emptyOrdersDB, List.cons_ne_nil, mkItemRow, itemTotal, jsNumOr, bumpPreps,
      deleteOrder]

/-- Claim C2, amended: every creation assigns order_number as ORD-
followed by the per-location row count plus 1, zero-padded to width 5;
over successive creations with no interleaved deletions the assigned
numbers are consecutive and their decoded sequence values strictly
increase (first order of a fresh location gets sequence value 1, hence
ORD-00001); and the number is assigned only at creation: neither
updateOrderStatus nor updateOrder ever rewrites any order_number. -/
theorem C2_order_number :
    (∀ (itemOk : OrderItemRow → Bool) (db : OrdersDB) (input : CreateOrderInput)
       (now : Nat) (o : OrderRow) (rows : List OrderItemRow) (loc : Nat),
      input.location_id = some loc →
      (createOrder itemOk db input now).2 = .ok (o, rows) →
      o.order_number = orderNumberOf (countAt db loc + 1)) ∧
    (∀ (loc now : Nat) (inputs : List CreateOrderInput) (db : OrdersDB),
      (∀ inp ∈ inputs, inp.location_id = some loc ∧ inp.items ≠ []) →
      (createRun db now inputs).2
          = (List.range inputs.length).map (fun k => orderNumberOf (countAt db loc + k + 1)) ∧
      ((createRun db now inputs).2).map orderSeqOf
          = (List.range inputs.length).map (fun k => countAt db loc + k + 1) ∧
      List.Pairwise (· < ·) (((createRun db now inputs).2).map orderSeqOf)) ∧
    (∀ (db : OrdersDB) (o : OrderRow) (st : String) (now : Nat),
      (db.orders.map (fun x => x.id)).Nodup →
      db.orders.find? (fun x => x.id == o.id) = some o →
      st ∈ validStatuses →
      ((updateOrderStatus db o.id (some st) now).1).orders.map (fun x => x.order_number)
        = db.orders.map (fun x => x.order_number)) ∧
    (∀ (db : OrdersDB) (o : OrderRow) (cust : Option (Option Nat))
       (nts : Option (Option String)) (stq : Option String) (now : Nat),
      (db.orders.map (fun x => x.id)).Nodup →
      db.orders.find? (fun x => x.id == o.id) = some o →
      ((updateOrder db o.id cust nts stq now).1).orders.map (fun x => x.order_number)
        = db.orders.map (fun x => x.order_number)) := by
  refine ⟨?_, ?_, ?_, ?_⟩
  · intro itemOk db input now o rows loc hloc h
    obtain ⟨loc', hloc', ho, -, -, -, -, -⟩ := createOrder_ok itemOk db input now o rows h
    have hl : loc' = loc := by
      rw [hloc] at hloc'
      exact (Option.some_inj.mp hloc').symm
    rw [ho, hl]
    rfl
  · intro loc now inputs db hins
    refine ⟨createRun_numbers loc now inputs db hins, createRun_seq loc now inputs db hins, ?_⟩
    rw [createRun_seq loc now inputs db hins]
    refine List.Pairwise.map _ ?_ (List.pairwise_lt_range _)
    intro a b hab
    omega
  · intro db o st now hnodup hfind hst
    rw [updateOrderStatus_found db o st now hfind hst]
    have ho_mem : o ∈ db.orders := List.mem_of_find?_eq_some hfind
    exact map_map_if_of_unique (fun x => x.id == o.id) (statusWrite o st now) o
      (fun x => x.order_number) db.orders
      (fun x hx hpx => List.inj_on_of_nodup_map hnodup hx ho_mem (by simpa using hpx))
      rfl
  · intro db o cust nts stq now hnodup hfind
    by_cases hst : validStatuses.contains (putWrite o cust nts stq now).status = true
    · rw [updateOrder_found_valid db o cust nts stq now hfind hst]
      have ho_mem : o ∈ db.orders := List.mem_of_find?_eq_some hfind
      exact map_map_if_of_unique (fun x => x.id == o.id) (putWrite o cust nts stq now) o
        (fun x => x.order_number) db.orders
        (fun x hx hpx => List.inj_on_of_nodup_map hnodup hx ho_mem (by simpa using hpx))
        rfl
    · rw [updateOrder_found_invalid db o cust nts stq now hfind hst]

/-- Witness for C2_order_number: two fresh creations get ORD-00001
then ORD-00002 with strictly increasing sequence values 1, 2, and a
status update rewrites no order_number. -/
theorem C2_order_number_witness :
    (createRun emptyOrdersDB 0 [oneItemInput, oneItemInput]).2
        = [orderNumberOf 1, orderNumberOf 2] ∧
    orderNumberOf 1 = "ORD-00001" ∧
    ((createRun emptyOrdersDB 0 [oneItemInput, oneItemInput]).2).map orderSeqOf = [1, 2] ∧
    ((updateOrderStatus seededOrdersDB seededOrder.id (some "preparing") 5).1).orders.map
        (fun x => x.order_number)
      = seededOrdersDB.orders.map (fun x => x.order_number) := by
  have hins : ∀ inp ∈ [oneItemInput, oneItemInput],
      inp.location_id = some 1 ∧ inp.items ≠ [] := by
    intro inp hinp
    simp only [List.mem_cons, List.not_mem_nil, or_false] at hinp
    rcases hinp with h | h <;>
      (subst h; exact ⟨rfl, by simp [oneItemInput]⟩)
  obtain ⟨hnums, hseq, -⟩ := C2_order_number.2.1 1 0 [oneItemInput, oneItemInput] emptyOrdersDB hins
  have hcount : countAt emptyOrdersDB 1 = 0 := rfl
  refine ⟨?_, ?_, ?_, ?_⟩
  · rw [hnums, hcount]
    norm_num [List.range_succ]
  · simp [orderNumberOf, orderNumberDigits, natDigits, padLeft5]
    rfl
  · rw [hseq, hcount]
    norm_num [List.range_succ]
  · refine C2_order_number.2.2.1 seededOrdersDB seededOrder "preparing" 5 ?_ ?_ ?_
    · simp [seededOrdersDB, seededOrder, deliveredOrder]
    · simp [seededOrdersDB, seededOrder]
    · simp [validStatuses]

/-- Claim C3: composite aggregate creation is atomic.  For
createIngredient and createOrder alike, either the call succeeds and
afterwards the parent row is appended together with exactly the rows
built from every supplied child (so the new parent's observable child
set is complete), or the call fails and the database is exactly the
initial one: no parent-without-children and no partial child set is
observable.  tierOk/itemOk model the storage layer accepting or
refusing each child INSERT. -/
theorem C3_atomic_creation :
    (∀ (tierOk : TierRow → Bool) (db : IngDB) (input : CreateIngredientInput) (now : Nat),
      (∀ e, (createIngredient tierOk db input now).2 = .error e →
        (createIngredient tierOk db input now).1 = db) ∧
      (∀ ing rows, (createIngredient tierOk db input now).2 = .ok (ing, rows) →
        (createIngredient tierOk db input now).1.ingredients = db.ingredients ++ [ing] ∧
        (createIngredient tierOk db input now).1.tiers = db.tiers ++ rows ∧
        rows = mkTierRows db.nextId (db.nextId + 1) input.quantities ∧
        ((∀ t ∈ db.tiers, t.ingredient_id ≠ db.nextId) →
          tiersOf (createIngredient tierOk db input now).1 ing.id = rows))) ∧
    (∀ (itemOk : OrderItemRow → Bool) (db : OrdersDB) (input : CreateOrderInput) (now : Nat),
      (∀ e, (createOrder itemOk db input now).2 = .error e →
        (createOrder itemOk db input now).1 = db) ∧
      (∀ o rows, (createOrder itemOk db input now).2 = .ok (o, rows) →
        (createOrder itemOk db input now).1.orders = db.orders ++ [o] ∧
        (createOrder itemOk db input now).1.orderItems = db.orderItems ++ rows ∧
        rows = mkItemRows db.nextId (db.nextId + 1) input.items ∧
        ((∀ it ∈ db.orderItems, it.order_id ≠ db.nextId) →
          itemsOf (createOrder itemOk db input now).1 o.id = rows))) := by
  constructor
  · intro tierOk db input now
    refine ⟨fun e he => createIngredient_error tierOk db input now e he, ?_⟩
    intro ing rows h
    obtain ⟨ft, hft, hi, hrows, hing, htiers, hnext⟩ :=
      createIngredient_ok tierOk db input now ing rows h
    refine ⟨hing, htiers, hrows, ?_⟩
    intro hfresh
    have hid : ing.id = db.nextId := by rw [hi]; rfl
    rw [tiersOf, htiers, hid, List.filter_append]
    rw [List.filter_eq_nil_iff.mpr (by
      intro t ht
      simpa using hfresh t ht)]
    rw [List.filter_eq_self.mpr (by
      intro r hr
      rw [hrows] at hr
      simpa using mkTierRows_ingredient_id db.nextId input.quantities _ r hr)]
    simp
  · intro itemOk db input now
    refine ⟨fun e he => createOrder_error itemOk db input now e he, ?_⟩
    intro o rows h
    obtain ⟨loc, hloc, ho, hrows, horders, hitems, hpreps, hnext⟩ :=
      createOrder_ok itemOk db input now o rows h
    refine ⟨horders, hitems, hrows, ?_⟩
    intro hfresh
    have hid : o.id = db.nextId := by rw [ho]; rfl
    rw [itemsOf, hitems, hid, List.filter_append]
    rw [List.filter_eq_nil_iff.mpr (by
      intro it hit
      simpa using hfresh it hit)]
    rw [List.filter_eq_self.mpr (by
      intro r hr
      rw [hrows] at hr
      simpa using mkItemRows_order_id db.nextId input.items _ r hr)]
    simp

/-- Witness for C3_atomic_creation: with a storage layer refusing
child inserts, creation leaves the empty databases untouched; with an
accepting one, the new ingredient's tiers and the new order's items
are exactly the supplied sets. -/
theorem C3_atomic_creation_witness :
    (createIngredient (fun _ => false) emptyIngDB exampleIngredientInput 0).1 = emptyIngDB ∧
    tiersOf (createIngredient (fun _ => true) emptyIngDB exampleIngredientInput 0).1
        (newIngredientRow emptyIngDB exampleIngredientInput 3 0).id
      = mkTierRows 1 2 exampleIngredientInput.quantities ∧
    (createOrder (fun _ => false) emptyOrdersDB exampleInput 0).1 = emptyOrdersDB ∧
    (createOrder (fun _ => true) emptyOrdersDB exampleInput 0).1.orderItems
      = mkItemRows 1 2 exampleInput.items := by
  have hingerr : (createIngredient (fun _ => false) emptyIngDB exampleIngredientInput 0).2
      = .error ⟨"ingredient quantity insert failed", 500⟩ := by
    rw [createIngredient]
    norm_num [exampleIngredientInput, insertTiers, emptyIngDB]
  have hingok : (createIngredient (fun _ => true) emptyIngDB exampleIngredientInput 0).2
      = .ok (newIngredientRow emptyIngDB exampleIngredientInput 3 0,
             mkTierRows 1 2 exampleIngredientInput.quantities) := by
    rw [createIngredient]
    norm_num [exampleIngredientInput, insertTiers, mkTierRows, emptyIngDB, newIngredientRow,
      mkTierRow, jsNumOrNull, jsNumOr]
  have horderr : (createOrder (fun _ => false) emptyOrdersDB exampleInput 0).2
      = .error ⟨"order item insert failed", 500⟩ := by
    rw [createOrder]
    norm_num [exampleInput, exampleItems, insertItems, emptyOrdersDB, List.cons_ne_nil]
  have hordok : (createOrder (fun _ => true) emptyOrdersDB exampleInput 0).2
      = .ok (newOrderRow emptyOrdersDB exampleInput 1 0, mkItemRows 1 2 exampleInput.items) := by
    rw [createOrder]
    norm_num [exampleInput, exampleItems, insertItems, mkItemRows, insertOrderRow, newOrderRow,
      emptyOrdersDB, List.cons_ne_nil]
  refine ⟨(C3_atomic_creation.1 (fun _ => false) emptyIngDB exampleIngredientInput 0).1 _ hingerr,
    ?_, (C3_atomic_creation.2 (fun _ => false) emptyOrdersDB exampleInput 0).1 _ horderr, ?_⟩
  · exact ((C3_atomic_creation.1 (fun _ => true) emptyIngDB exampleIngredientInput 0).2
      _ _ hingok).2.2.2 (by simp [emptyIngDB])
  · exact (((C3_atomic_creation.2 (fun _ => true) emptyOrdersDB exampleInput 0).2
      _ _ hordok).2.1).trans (by simp [emptyOrdersDB])

/-- Claim C4: the customers.total_preps counter (schema trigger
update_customer_total_preps) increments by exactly 1 when an order
referencing the customer is created, decrements by exactly 1 when such
an order is deleted, is untouched by updateOrderStatus, and a creation
followed by deletion of that same order restores the original value. -/
theorem C4_total_preps :
    (∀ (itemOk : OrderItemRow → Bool) (db : OrdersDB) (input : CreateOrderInput)
       (now c : Nat) (o : OrderRow) (rows : List OrderItemRow),
      input.customer_id = some c →
      (createOrder itemOk db input now).2 = .ok (o, rows) →
      (createOrder itemOk db input now).1.totalPreps c = db.totalPreps c + 1) ∧
    (∀ (db : OrdersDB) (oid : Nat) (o : OrderRow) (c : Nat),
      db.orders.filter (fun x => x.id == oid) = [o] →
      o.customer_id = some c →
      (deleteOrder db oid).1.totalPreps c = db.totalPreps c - 1) ∧
    (∀ (db : OrdersDB) (oid : Nat) (status : Option String) (now : Nat),
      (updateOrderStatus db oid status now).1.totalPreps = db.totalPreps) ∧
    (∀ (itemOk : OrderItemRow → Bool) (db : OrdersDB) (input : CreateOrderInput)
       (now c : Nat) (o : OrderRow) (rows : List OrderItemRow),
      input.customer_id = some c →
      (∀ x ∈ db.orders, x.id ≠ db.nextId) →
      (createOrder itemOk db input now).2 = .ok (o, rows) →
      (deleteOrder (createOrder itemOk db input now).1 db.nextId).1.totalPreps c
        = db.totalPreps c) := by
  have hdel : ∀ (db : OrdersDB) (oid : Nat) (o : OrderRow) (c : Nat),
      db.orders.filter (fun x => x.id == oid) = [o] →
      o.customer_id = some c →
      (deleteOrder db oid).1.totalPreps c = db.totalPreps c - 1 := by
    intro db oid o c hfilter hc
    obtain ⟨-, -, -, hpreps⟩ := deleteOrder_found db oid o hfilter
    rw [hpreps, hc]
    simp [bumpPreps]
    omega
  refine ⟨?_, hdel, ?_, ?_⟩
  · intro itemOk db input now c o rows hc h
    obtain ⟨loc, -, -, -, -, -, hpreps, -⟩ := createOrder_ok itemOk db input now o rows h
    rw [hpreps, hc]
    simp [bumpPreps]
  · intro db oid status now
    rcases status with _ | st
    · rfl
    · rw [updateOrderStatus]
      by_cases hemp : st = ""
      · rw [if_pos hemp]
      · rw [if_neg hemp]
        by_cases hc : validStatuses.contains st = true
        · rw [if_pos hc]
          rcases hfind : db.orders.find? (fun o => o.id == oid) with _ | o
          · rw [hfind]
          · rw [hfind]
            rfl
        · rw [if_neg hc]
  · intro itemOk db input now c o rows hc hfresh h
    obtain ⟨loc, -, ho, -, horders, -, hpreps, -⟩ := createOrder_ok itemOk db input now o rows h
    have hid : o.id = db.nextId := by rw [ho]; rfl
    have hfilter : ((createOrder itemOk db input now).1).orders.filter
        (fun x => x.id == db.nextId) = [o] := by
      rw [horders, List.filter_append]
      rw [List.filter_eq_nil_iff.mpr (by
        intro x hx
        simpa using hfresh x hx)]
      simp [hid]
    have hco : o.customer_id = some c := by
      rw [ho]
      simpa [newOrderRow] using hc
    obtain ⟨-, -, -, hdpreps⟩ := deleteOrder_found _ db.nextId o hfilter
    rw [hdpreps, hco, hpreps, hc]
    simp [bumpPreps]

/-- Witness for C4_total_preps on a concrete database: creating an
order for customer 7 raises the counter from 1 to 2, deleting the
existing order drops it to 0, a status update leaves the counter map
untouched, and create-then-delete is the identity on the counter. -/
theorem C4_total_preps_witness :
    (createOrder (fun _ => true) seededOrdersDB exampleInput 0).1.totalPreps 7
        = seededOrdersDB.totalPreps 7 + 1 ∧
    (deleteOrder seededOrdersDB 1).1.totalPreps 7 = seededOrdersDB.totalPreps 7 - 1 ∧
    (updateOrderStatus seededOrdersDB 1 (some "ready") 5).1.totalPreps
        = seededOrdersDB.totalPreps ∧
    (deleteOrder (createOrder (fun _ => true) seededOrdersDB exampleInput 0).1
        seededOrdersDB.nextId).1.totalPreps 7
      = seededOrdersDB.totalPreps 7 := by
  have hok : (createOrder (fun _ => true) seededOrdersDB exampleInput 0).2
      = .ok (newOrderRow seededOrdersDB exampleInput 1 0,
             mkItemRows seededOrdersDB.nextId (seededOrdersDB.nextId + 1) exampleInput.items) := by
    rw [createOrder]
    norm_num [exampleInput, exampleItems, insertItems, mkItemRows, insertOrderRow, newOrderRow,
      seededOrdersDB, seededOrder, deliveredOrder, List.cons_ne_nil, countAt]
  refine ⟨C4_total_preps.1 (fun _ => true) seededOrdersDB exampleInput 0 7 _ _ rfl hok,
    C4_total_preps.2.1 seededOrdersDB 1 seededOrder 7 ?_ rfl,
    C4_total_preps.2.2.1 seededOrdersDB 1 (some "ready") 5,
    C4_total_preps.2.2.2 (fun _ => true) seededOrdersDB exampleInput 0 7 _ _ rfl ?_ hok⟩
  · simp [seededOrdersDB, seededOrder, deliveredOrder]
  · intro x hx
    simp only [seededOrdersDB, List.mem_cons, List.not_mem_nil, or_false] at hx
    rcases hx with hx | hx <;> (subst hx; simp [seededOrder, deliveredOrder, seededOrdersDB])

/-- Claim C5: tier replacement on ingredient update is all-or-nothing.
When a quantities array is supplied (even empty) and the update
succeeds, the complete persisted tier set of the ingredient is exactly
the rows built from the supplied array, with no leftover old tiers;
when the quantities field is omitted, the persisted tiers are left
untouched and the call returns exactly the existing tiers. -/
theorem C5_tier_replacement (tierOk : TierRow → Bool) (db : IngDB) (ing : IngredientRow)
    (input : UpdateIngredientInput) (now : Nat)
    (hfind : db.ingredients.find? (fun x => x.id == ing.id) = some ing) :
    (∀ qs ing' rows, input.quantities = some qs →
      (updateIngredient tierOk db ing.id input now).2 = .ok (ing', rows) →
      rows = mkTierRows ing.id db.nextId qs ∧
      tiersOf (updateIngredient tierOk db ing.id input now).1 ing.id = rows) ∧
    (input.quantities = none →
      (updateIngredient tierOk db ing.id input now).1.tiers = db.tiers ∧
      (updateIngredient tierOk db ing.id input now).2
        = .ok (ingredientWrite ing input now, tiersOf db ing.id)) := by
  constructor
  · intro qs ing' rows hq h
    rw [updateIngredient, hfind] at h ⊢
    dsimp only at h ⊢
    rw [hq] at h ⊢
    dsimp only at h ⊢
    rcases hrec : insertTiers tierOk
        { nextId := (saveIngredient db (ingredientWrite ing input now)).nextId
          ingredients := (saveIngredient db (ingredientWrite ing input now)).ingredients
          tiers := (saveIngredient db (ingredientWrite ing input now)).tiers.filter
            (fun t => !(t.ingredient_id == ing.id)) }
        ing.id qs with e | ⟨db3, rows'⟩
    · rw [hrec] at h
      simp at h
    · rw [hrec] at h
      dsimp only at h ⊢
      simp only [Except.ok.injEq, Prod.mk.injEq] at h
      obtain ⟨hi, hrows⟩ := h
      obtain ⟨hr, -, htiers, -⟩ := insertTiers_ok tierOk ing.id _ _ _ _ hrec
      subst hrows
      constructor
      · simpa [saveIngredient] using hr
      · rw [tiersOf, htiers, List.filter_append]
        rw [List.filter_eq_nil_iff.mpr (by
          intro t ht
          have := (List.mem_filter.mp ht).2
          simpa using this)]
        rw [List.filter_eq_self.mpr (by
          intro r hr2
          rw [hr] at hr2
          simpa using mkTierRows_ingredient_id ing.id qs _ r hr2)]
        simp
  · intro hq
    rw [updateIngredient, hfind]
    dsimp only
    rw [hq]
    exact ⟨rfl, rfl⟩

/-- Witness for C5_tier_replacement on a concrete database: a
supplied single-tier array fully replaces the two existing tiers, a
supplied empty array deletes them all, and omitting the field leaves
the tier table untouched. -/
theorem C5_tier_replacement_witness :
    tiersOf (updateIngredient (fun _ => true) seededIngDB seededIngredient.id
        replaceTiersInput 7).1 seededIngredient.id
      = mkTierRows seededIngredient.id seededIngDB.nextId [⟨"500g", some 500, some 20, none⟩] ∧
    tiersOf (updateIngredient (fun _ => true) seededIngDB seededIngredient.id
        emptyTiersInput 7).1 seededIngredient.id = [] ∧
    (updateIngredient (fun _ => true) seededIngDB seededIngredient.id
        keepTiersInput 7).1.tiers = seededIngDB.tiers := by
  have hfind : seededIngDB.ingredients.find? (fun x => x.id == seededIngredient.id)
      = some seededIngredient := by
    simp [seededIngDB, seededIngredient]
  have hrepl : (updateIngredient (fun _ => true) seededIngDB seededIngredient.id
      replaceTiersInput 7).2
      = .ok (ingredientWrite seededIngredient replaceTiersInput 7,
             mkTierRows seededIngredient.id seededIngDB.nextId
               [⟨"500g", some 500, some 20, none⟩]) := by
    rw [updateIngredient]
    norm_num [seededIngDB, seededIngredient, replaceTiersInput, saveIngredient,
      ingredientWrite, insertTiers, mkTierRows, mkTierRow, jsNumOrNull, jsNumOr]
  have hempty : (updateIngredient (fun _ => true) seededIngDB seededIngredient.id
      emptyTiersInput 7).2
      = .ok (ingredientWrite seededIngredient emptyTiersInput 7,
             mkTierRows seededIngredient.id seededIngDB.nextId []) := by
    rw [updateIngredient]
    norm_num [seededIngDB, seededIngredient, emptyTiersInput, saveIngredient,
      ingredientWrite, insertTiers, mkTierRows]
  refine ⟨((C5_tier_replacement (fun _ => true) seededIngDB seededIngredient
      replaceTiersInput 7 hfind).1 _ _ _ rfl hrepl).2, ?_, ?_⟩
  · have h := ((C5_tier_replacement (fun _ => true) seededIngDB seededIngredient
      emptyTiersInput 7 hfind).1 _ _ _ rfl hempty).2
    simpa [mkTierRows] using h
  · exact ((C5_tier_replacement (fun _ => true) seededIngDB seededIngredient
      keepTiersInput 7 hfind).2 rfl).1

/-- Claim C6: updateOrderStatus sets delivered_at to the current
instant exactly when the new status is delivered, leaves it unchanged
for every other status (never clears it), changes nothing besides
status, delivered_at and updated_at, and after delivering, a later
move to preparing leaves delivered_at at its delivered-time value. -/
theorem C6_delivered_at (db : OrdersDB) (o : OrderRow) (st : String) (now now2 : Nat)
    (hfind : db.orders.find? (fun x => x.id == o.id) = some o)
    (hst : st ∈ validStatuses) :
    (updateOrderStatus db o.id (some st) now).2 = .ok (statusWrite o st now) ∧
    (st = "delivered" → (statusWrite o st now).delivered_at = some now) ∧
    (st ≠ "delivered" → (statusWrite o st now).delivered_at = o.delivered_at) ∧
    (statusWrite o st now).status = st ∧
    (statusWrite o st now).id = o.id ∧
    (statusWrite o st now).location_id = o.location_id ∧
    (statusWrite o st now).customer_id = o.customer_id ∧
    (statusWrite o st now).order_number = o.order_number ∧
    (statusWrite o st now).total_price = o.total_price ∧
    (statusWrite o st now).notes = o.notes ∧
    (statusWrite o st now).order_date = o.order_date ∧
    ((updateOrderStatus (updateOrderStatus db o.id (some "delivered") now).1
        o.id (some "preparing") now2).2.map (fun r => r.delivered_at) = .ok (some now)) := by
  have h1 := updateOrderStatus_found db o st now hfind hst
  have hdel := updateOrderStatus_found db o "delivered" now hfind (by simp [validStatuses])
  have hfind2 : ((updateOrderStatus db o.id (some "delivered") now).1).orders.find?
      (fun x => x.id == o.id) = some (statusWrite o "delivered" now) := by
    rw [hdel]
    exact find?_map_if _ _ _ _ hfind (by simp [statusWrite])
  have h2 : updateOrderStatus (updateOrderStatus db o.id (some "delivered") now).1
      o.id (some "preparing") now2
      = (saveOrder (updateOrderStatus db o.id (some "delivered") now).1
          (statusWrite (statusWrite o "delivered" now) "preparing" now2),
         .ok (statusWrite (statusWrite o "delivered" now) "preparing" now2)) :=
    updateOrderStatus_found (updateOrderStatus db o.id (some "delivered") now).1
      (statusWrite o "delivered" now) "preparing" now2 hfind2 (by simp [validStatuses])
  refine ⟨by rw [h1], ?_, ?_, rfl, rfl, rfl, rfl, rfl, rfl, rfl, rfl, ?_⟩
  · intro hd
    simp [statusWrite, hd]
  · intro hd
    simp [statusWrite, hd]
  · have : (updateOrderStatus (updateOrderStatus db o.id (some "delivered") now).1
        o.id (some "preparing") now2).2
        = .ok (statusWrite (statusWrite o "delivered" now) "preparing" now2) := by
      rw [h2]
    rw [this]
    simp [Except.map, statusWrite]

/-- Witness for C6_delivered_at on the seeded database: delivering
order 1 at instant 5 stamps delivered_at with 5, and the subsequent
move to preparing at instant 6 keeps delivered_at at 5. -/
theorem C6_delivered_at_witness :
    (updateOrderStatus seededOrdersDB seededOrder.id (some "delivered") 5).2
        = .ok (statusWrite seededOrder "delivered" 5) ∧
    (statusWrite seededOrder "delivered" 5).delivered_at = some 5 ∧
    (statusWrite seededOrder "delivered" 5).order_number = seededOrder.order_number ∧
    ((updateOrderStatus (updateOrderStatus seededOrdersDB seededOrder.id
        (some "delivered") 5).1 seededOrder.id (some "preparing") 6).2.map
      (fun r => r.delivered_at) = .ok (some 5)) := by
  have h := C6_delivered_at seededOrdersDB seededOrder "delivered" 5 6
    (by simp [seededOrdersDB, seededOrder]) (by simp [validStatuses])
  obtain ⟨hok, hdel, -, -, -, -, -, hnum, -, -, -, hscen⟩ := h
  exact ⟨hok, hdel rfl, hnum, hscen⟩

/-- Claim C7: updateOrderStatus accepts every status string of the
enum and overwrites the current status unconditionally, including from
the terminal statuses delivered and cancelled; a status outside the
enum fails with a 400 error and leaves the database unchanged. -/
theorem C7_status_enum (db : OrdersDB) (o : OrderRow) (st : String) (now : Nat)
    (hfind : db.orders.find? (fun x => x.id == o.id) = some o) :
    (st ∈ validStatuses →
      (updateOrderStatus db o.id (some st) now).2 = .ok (statusWrite o st now) ∧
      (statusWrite o st now).status = st) ∧
    (st ∉ validStatuses →
      (updateOrderStatus db o.id (some st) now).1 = db ∧
      ∃ e, (updateOrderStatus db o.id (some st) now).2 = .error e ∧ e.statusCode = 400) := by
  constructor
  · intro hst
    exact ⟨by rw [updateOrderStatus_found db o st now hfind hst], rfl⟩
  · intro hst
    obtain ⟨e, he, hcode⟩ := updateOrderStatus_invalid db o.id st now hst
    exact ⟨by rw [he], e, by rw [he], hcode⟩

/-- Witness for C7_status_enum: the terminal-status order 9 (status
delivered) is overwritten back to received, and the out-of-enum string
"bogus" is rejected with a 400 while the database stays intact. -/
theorem C7_status_enum_witness :
    (updateOrderStatus seededOrdersDB deliveredOrder.id (some "received") 7).2
        = .ok (statusWrite deliveredOrder "received" 7) ∧
    (statusWrite deliveredOrder "received" 7).status = "received" ∧
    deliveredOrder.status = "delivered" ∧
    (updateOrderStatus seededOrdersDB seededOrder.id (some "bogus") 7).1 = seededOrdersDB := by
  have hterm := (C7_status_enum seededOrdersDB deliveredOrder "received" 7
    (by simp [seededOrdersDB, seededOrder, deliveredOrder])).1 (by simp [validStatuses])
  have hbad := (C7_status_enum seededOrdersDB seededOrder "bogus" 7
    (by simp [seededOrdersDB, seededOrder])).2 (by simp [validStatuses])
  exact ⟨hterm.1, hterm.2, rfl, hbad.1⟩

/-- Claim C8, counterexample.  In the SQL login variant the
account-status check runs before the password is verified, so a
wrong-password attempt against a known but inactive email fails with
AccountInactive while the same attempt against an unknown email fails
with InvalidCredentials: the two failures are distinguishable and the
error reveals that the inactive email exists. -/
theorem C8_counterexample :
    loginUserSql rejectAll [1] exampleUsers "ines@thrive.io" "guess"
      = .error ⟨"Account is not active", 401⟩ ∧
    loginUserSql rejectAll [1] exampleUsers "ghost@thrive.io" "guess"
      = .error ⟨"Invalid credentials", 401⟩ ∧
    (⟨"Account is not active", 401⟩ : AppError) ≠ ⟨"Invalid credentials", 401⟩ := by
  refine ⟨?_, ?_, by decide⟩
  · rfl
  · rfl

/-- Claim C8, amended: the TypeORM login variant verifies the
password before any status check, so an unknown email and a known
email with a wrong password both fail with exactly the same
InvalidCredentials error, whatever the account status; the SQL login
variant is indistinguishable in the same way only when the known
account's status is active, since an inactive account is reported as
AccountInactive before the password is checked. -/
theorem C8_invalid_credentials :
    (∀ (verify : String → String → Bool) (users : List UserRow) (email password : String),
      email ≠ "" → password ≠ "" →
      (users.find? (fun u => u.email == email) = none →
        (loginUserTypeorm verify users email password).2 = .error ⟨"Invalid credentials", 401⟩) ∧
      (∀ u, users.find? (fun u => u.email == email) = some u →
        verify password u.password_hash = false →
        (loginUserTypeorm verify users email password).2
          = .error ⟨"Invalid credentials", 401⟩)) ∧
    (∀ (verify : String → String → Bool) (locationIds : List Nat) (users : List UserRow)
       (email password : String),
      email ≠ "" → password ≠ "" →
      (users.find? (fun u => u.email == email && locationIds.contains u.location_id)
          = none →
        loginUserSql verify locationIds users email password
          = .error ⟨"Invalid credentials", 401⟩) ∧
      (∀ u, users.find? (fun u => u.email == email && locationIds.contains u.location_id)
          = some u →
        u.account_status = "active" →
        verify password u.password_hash = false →
        loginUserSql verify locationIds users email password
          = .error ⟨"Invalid credentials", 401⟩)) := by
  constructor
  · intro verify users email password hemail hpw
    constructor
    · intro hfind
      rw [loginUserTypeorm, if_neg (by simp [hemail, hpw]), hfind]
    · intro u hfind hv
      rw [loginUserTypeorm, if_neg (by simp [hemail, hpw]), hfind]
      dsimp only
      rw [if_pos (by simp [hv])]
  · intro verify locationIds users email password hemail hpw
    constructor
    · intro hfind
      rw [loginUserSql, if_neg (by simp [hemail, hpw]), hfind]
    · intro u hfind hactive hv
      rw [loginUserSql, if_neg (by simp [hemail, hpw]), hfind]
      dsimp only
      rw [if_neg (by simp [hactive]), if_pos (by simp [hv])]

/-- Witness for C8_invalid_credentials: against the seeded users
table, an unknown email and a wrong password for the active user ana
produce the identical InvalidCredentials error in both variants. -/
theorem C8_invalid_credentials_witness :
    (loginUserTypeorm rejectAll exampleUsers "ghost@thrive.io" "guess").2
      = .error ⟨"Invalid credentials", 401⟩ ∧
    (loginUserTypeorm rejectAll exampleUsers "ana@thrive.io" "guess").2
      = .error ⟨"Invalid credentials", 401⟩ ∧
    loginUserSql rejectAll [1] exampleUsers "ana@thrive.io" "guess"
      = .error ⟨"Invalid credentials", 401⟩ := by
  refine ⟨(C8_invalid_credentials.1 rejectAll exampleUsers "ghost@thrive.io" "guess"
      (by decide) (by decide)).1 ?_,
    (C8_invalid_credentials.1 rejectAll exampleUsers "ana@thrive.io" "guess"
      (by decide) (by decide)).2 anaUser ?_ rfl,
    (C8_invalid_credentials.2 rejectAll [1] exampleUsers "ana@thrive.io" "guess"
      (by decide) (by decide)).2 anaUser ?_ rfl rfl⟩
  · simp [exampleUsers, inesUser, anaUser]
  · simp [exampleUsers, inesUser, anaUser]
  · simp [exampleUsers, inesUser, anaUser]

/-- Claim C9: toggleMenuStatus maps draft to active and active to
draft, changes no other field, and applying it twice returns the item
to its original state (an involution on the two-state status). -/
theorem C9_toggle_involution (db : List MenuItemRow) (m : MenuItemRow)
    (hfind : db.find? (fun x => x.id == m.id) = some m) :
    (toggleMenuStatus db m.id).2 = .ok (toggleWrite m) ∧
    (m.status = MenuStatus.draft → (toggleWrite m).status = MenuStatus.active) ∧
    (m.status = MenuStatus.active → (toggleWrite m).status = MenuStatus.draft) ∧
    (toggleWrite m).id = m.id ∧
    (toggleWrite m).location_id = m.location_id ∧
    (toggleWrite m).name = m.name ∧
    (toggleWrite m).price = m.price ∧
    (toggleWrite m).description = m.description ∧
    (toggleMenuStatus (toggleMenuStatus db m.id).1 m.id).2 = .ok m := by
  have h1 : toggleMenuStatus db m.id
      = (db.map (fun x => if x.id == m.id then toggleWrite m else x), .ok (toggleWrite m)) := by
    rw [toggleMenuStatus, hfind]
  have hfind2 : ((toggleMenuStatus db m.id).1).find? (fun x => x.id == m.id)
      = some (toggleWrite m) := by
    rw [h1]
    exact find?_map_if _ _ _ _ hfind (by simp [toggleWrite])
  have hround : toggleWrite (toggleWrite m) = m := by
    obtain ⟨mid, mloc, mname, mprice, mstatus, mdesc⟩ := m
    cases mstatus <;> rfl
  have h2 : toggleMenuStatus (toggleMenuStatus db m.id).1 m.id
      = (((toggleMenuStatus db m.id).1).map
          (fun x => if x.id == m.id then toggleWrite (toggleWrite m) else x),
         .ok (toggleWrite (toggleWrite m))) := by
    rw [toggleMenuStatus, hfind2]
  refine ⟨by rw [h1], ?_, ?_, rfl, rfl, rfl, rfl, rfl, by rw [h2, hround]⟩
  · intro h
    simp [toggleWrite, h]
  · intro h
    simp [toggleWrite, h]

/-- Witness for C9_toggle_involution: toggling the draft item makes
it active, toggling the active item makes it draft, and toggling each
twice restores it. -/
theorem C9_toggle_involution_witness :
    (toggleMenuStatus exampleMenuDB draftBurger.id).2 = .ok (toggleWrite draftBurger) ∧
    (toggleWrite draftBurger).status = MenuStatus.active ∧
    (toggleMenuStatus (toggleMenuStatus exampleMenuDB draftBurger.id).1 draftBurger.id).2
      = .ok draftBurger ∧
    (toggleWrite activeSalad).status = MenuStatus.draft := by
  have hb := C9_toggle_involution exampleMenuDB draftBurger
    (by simp [exampleMenuDB, draftBurger])
  have hs := C9_toggle_involution exampleMenuDB activeSalad
    (by simp [exampleMenuDB, draftBurger, activeSalad])
  exact ⟨hb.1, hb.2.1 rfl, hb.2.2.2.2.2.2.2.2, hs.2.2.1 rfl⟩

/-- Claim C10, counterexample.  The claim says PUT overwrites the
status with any supplied value.  The controller indeed performs no
enum validation, but the orders.status column is the Postgres enum
order_status, so the database refuses the out-of-enum string "bogus":
the call errors with the 22P02 mapping (400 Invalid input format) and
the order is left unchanged, never overwritten. -/
theorem C10_counterexample :
    validStatuses.contains "bogus" = false ∧
    updateOrder seededOrdersDB seededOrder.id none none (some "bogus") 8
      = (seededOrdersDB, .error ⟨"Invalid input format", 400⟩) := by
  refine ⟨by decide, ?_⟩
  exact updateOrder_found_invalid seededOrdersDB seededOrder none none (some "bogus") 8
    (by simp [seededOrdersDB, seededOrder]) (by decide)

/-- Claim C10, amended: the PUT update performs no enum-membership
validation of its own and sends any supplied status string to the
database; a status inside the order_status enum is overwritten
unconditionally, whatever the current status; a status outside the
enum is refused by the storage layer's enum constraint (not by the
controller), surfacing 400 Invalid input format with the order
unchanged; and delivered_at is never touched, not even when the
supplied status is "delivered"; order_number is untouched too. -/
theorem C10_put_status (db : OrdersDB) (o : OrderRow)
    (customer_id : Option (Option Nat)) (notes : Option (Option String))
    (st : String) (now : Nat)
    (hfind : db.orders.find? (fun x => x.id == o.id) = some o) :
    (st ∈ validStatuses →
      (updateOrder db o.id customer_id notes (some st) now).2
        = .ok (putWrite o customer_id notes (some st) now) ∧
      (putWrite o customer_id notes (some st) now).status = st ∧
      (putWrite o customer_id notes (some st) now).delivered_at = o.delivered_at ∧
      (putWrite o customer_id notes (some st) now).order_number = o.order_number) ∧
    (st ∉ validStatuses →
      updateOrder db o.id customer_id notes (some st) now
        = (db, .error ⟨"Invalid input format", 400⟩)) := by
  constructor
  · intro hst
    have hc : validStatuses.contains (putWrite o customer_id notes (some st) now).status
        = true := by
      simpa [putWrite] using hst
    exact ⟨by rw [updateOrder_found_valid db o customer_id notes (some st) now hfind hc],
      rfl, rfl, rfl⟩
  · intro hst
    have hc : ¬ validStatuses.contains (putWrite o customer_id notes (some st) now).status
        = true := by
      simpa [putWrite] using hst
    exact updateOrder_found_invalid db o customer_id notes (some st) now hfind hc

/-- Witness for C10_put_status: a supplied "delivered" is overwritten
onto the received order without touching its null delivered_at, the
terminal-status order 9 is overwritten back to "received" while its
delivered_at stays at 3, and the out-of-enum string "pending" is
refused with the order database unchanged. -/
theorem C10_put_status_witness :
    (updateOrder seededOrdersDB seededOrder.id none none (some "delivered") 8).2
      = .ok (putWrite seededOrder none none (some "delivered") 8) ∧
    (putWrite seededOrder none none (some "delivered") 8).status = "delivered" ∧
    (putWrite seededOrder none none (some "delivered") 8).delivered_at = none ∧
    (updateOrder seededOrdersDB deliveredOrder.id none none (some "received") 8).2
      = .ok (putWrite deliveredOrder none none (some "received") 8) ∧
    (putWrite deliveredOrder none none (some "received") 8).delivered_at = some 3 ∧
    updateOrder seededOrdersDB seededOrder.id none none (some "pending") 8
      = (seededOrdersDB, .error ⟨"Invalid input format", 400⟩) := by
  have hfind : seededOrdersDB.orders.find? (fun x => x.id == seededOrder.id)
      = some seededOrder := by
    simp [seededOrdersDB, seededOrder]
  have hfind9 : seededOrdersDB.orders.find? (fun x => x.id == deliveredOrder.id)
      = some deliveredOrder := by
    simp [seededOrdersDB, seededOrder, deliveredOrder]
  have hd := (C10_put_status seededOrdersDB seededOrder none none "delivered" 8 hfind).1
    (by simp [validStatuses])
  have hr := (C10_put_status seededOrdersDB deliveredOrder none none "received" 8 hfind9).1
    (by simp [validStatuses])
  have hp := (C10_put_status seededOrdersDB seededOrder none none "pending" 8 hfind).2
    (by simp [validStatuses])
  exact ⟨hd.1, hd.2.1, hd.2.2.1.trans rfl, hr.1, hr.2.2.1.trans rfl, hp⟩

end Thrive
